import Mathlib

/-!
Shallow embedding of `dev_tools/docs/nxdl.py` (NeXus NXDL → reStructuredText
documentation generator) and proofs about its behaviour.

XML elements handled by the Python code through `lxml` duck typing are
modelled as a tagged tree `Elem` with an attribute association list, a text
payload (the serialised + HTML-unescaped content of a `<doc>` node) and a
list of children.  Python strings become `String`, `node.get(k)` becomes an
association-list lookup returning `Option String`, Python exceptions become
`Except String`.
-/

namespace Nxdl

/-! ### Python string primitives -/

/-- Truthiness of an optional string: Python `if s:` is false for `None` and `""`. -/
def pyTruthy : Option String → Bool
  | none => false
  | some s => s ≠ ""

/-- Python `str.isdigit` restricted to ASCII digits (the only ones occurring in NXDL). -/
def isDigitStr (s : String) : Bool :=
  s ≠ "" && s.toList.all Char.isDigit

/-- Python `int(s)` for the digit strings admitted by the `isdigit` guards
under which the code converts (`String.toNat?` itself is compiled by
well-founded recursion and does not reduce in the kernel). -/
def pyParseNat (s : String) : Nat :=
  s.toList.foldl (fun n c => n * 10 + (c.toNat - '0'.toNat)) 0

/-- The characters matched by Python `\s` and stripped by `str.strip` (ASCII subset). -/
def isPySpace (c : Char) : Bool :=
  c = ' ' || c = '\t' || c = '\n' || c = '\r' || c = '\x0b' || c = '\x0c'

/-- Python `str.rstrip()`. -/
def pyRstrip (s : String) : String :=
  String.mk ((s.toList.reverse.dropWhile isPySpace).reverse)

/-- Python `str.lstrip()`. -/
def pyLstrip (s : String) : String :=
  String.mk (s.toList.dropWhile isPySpace)

/-- Python `s.rstrip().lstrip()`. -/
def pyStrip (s : String) : String :=
  pyLstrip (pyRstrip s)

/-- Python `str(x)` for an optional string: `None` prints as `"None"`. -/
def pyStr : Option String → String
  | none => "None"
  | some s => s

/-- Python `"sep".join`. -/
def pyJoin (sep : String) (xs : List String) : String :=
  String.intercalate sep xs

/-- Python `s * n` string repetition. -/
def pyRepeat (s : String) (n : Nat) : String :=
  String.join (List.replicate n s)

/-- Split on a non-empty separator (`str.split(sep)`); the fuel argument is
spent one unit per consumed character so the recursion is structural (the
`0` branch is unreachable when the fuel starts at the text length). -/
def pySplitOnAux (sep : List Char) : Nat → List Char → List Char → List (List Char)
  | _, [], acc => [acc.reverse]
  | 0, cs, acc => [acc.reverse ++ cs]
  | fuel + 1, c :: rest, acc =>
    if sep.isPrefixOf (c :: rest) then
      acc.reverse :: pySplitOnAux sep fuel (List.drop (sep.length - 1) rest) []
    else
      pySplitOnAux sep fuel rest (c :: acc)

/-- Python `s.split(sep)` for a non-empty separator. -/
def pySplitOn (s sep : String) : List String :=
  (pySplitOnAux sep.toList s.toList.length s.toList []).map String.mk

/-- Python `str.splitlines` for `\n`-separated text: a trailing newline does
not produce a final empty line, and `"".splitlines() = []`. -/
def pySplitlines (s : String) : List String :=
  let parts := pySplitOn s "\n"
  if parts.getLast? = some "" then parts.dropLast else parts

/-- Python `sub in s` / `s.startswith(sub)` building blocks. -/
def pyIsPrefixOf (p s : String) : Bool :=
  p.toList.isPrefixOf s.toList

/-- Python `s.startswith(p)`. -/
def pyStartsWith (s p : String) : Bool :=
  pyIsPrefixOf p s

/-- Python `s.lower()` (ASCII). -/
def pyToLower (s : String) : String :=
  String.mk (s.toList.map Char.toLower)

/-- Python `s.replace(old, new)` for a non-empty `old`. -/
def pyReplace (s old new : String) : String :=
  String.intercalate new (pySplitOn s old)

/-- Python string `<=`: lexicographic on code points. -/
def strLeList : List Char → List Char → Bool
  | [], _ => true
  | _ :: _, [] => false
  | a :: as, b :: bs =>
    if a.toNat < b.toNat then true
    else if b.toNat < a.toNat then false
    else strLeList as bs

/-- Python `a <= b` on strings. -/
def pyStrLe (a b : String) : Bool :=
  strLeList a.toList b.toList

/-- Stable insertion of one element into a (key-)sorted list; models the
placement performed by the stable Python `sorted`. -/
def pyInsertBy (le : String → String → Bool) (x : String) : List String → List String
  | [] => [x]
  | y :: ys => if le y x then y :: pyInsertBy le x ys else x :: y :: ys

/-- Python `sorted(xs, key=...)` as a stable insertion sort with a boolean `≤`. -/
def pySorted (le : String → String → Bool) (xs : List String) : List String :=
  xs.foldr (pyInsertBy le) []

/-! ### The XML element model -/

/-- An XML element as seen through the generator: tag name (namespace already
stripped), attribute association list, text payload of a `<doc>` element
(modelling the serialise + regex-extract + HTML-unescape pipeline of
`_get_doc_blocks`), and child elements. -/
inductive Elem : Type where
  | mk : String → List (String × String) → String → List Elem → Elem

def Elem.tag : Elem → String
  | .mk t _ _ _ => t

def Elem.attrsOf : Elem → List (String × String)
  | .mk _ a _ _ => a

def Elem.text : Elem → String
  | .mk _ _ s _ => s

def Elem.children : Elem → List Elem
  | .mk _ _ _ c => c

/-- `node.get(key)`: optional attribute lookup. -/
def Elem.get? (e : Elem) (k : String) : Option String :=
  (e.attrsOf.find? (fun p => p.1 = k)).map (·.2)

/-- `node.get(key, default)`. -/
def Elem.get (e : Elem) (k d : String) : String :=
  (e.get? k).getD d

/-- `node.xpath("nx:tag")`: the children carrying a given tag, in document order. -/
def Elem.tagged (e : Elem) (t : String) : List Elem :=
  e.children.filter (fun c => c.tag = t)

/-! ### `_analyze_dimensions` (nxdl.py lines 367-471) -/

/-- Error message of the missing-index check. -/
def msgNoIndex : String := "A dimension must have an index"

/-- Error message of the positive-index check. -/
def msgBadIndex : String := "A dimension's index must be a positive integer (>=1)"

/-- Error message of the ordering check. -/
def msgOrder : String := "A required dimension cannot come after an optional dimension"

/-- Error message of the fixed-rank/optional check. -/
def msgFixedOptional : String := "A fixed rank cannot have optional dimensions"

/-- Error message of the rank/count check. -/
def msgRankCount : String := "The rank and the number of dimensions do not correspond"

/-- The short-circuit descriptor returned for a `<dim>` carrying a `ref`. -/
def refDescriptor (ref : String) : String :=
  " (Rank: same as field " ++ ref ++ ", Dimensions: same as field " ++ ref ++ ")"

/-- Result of the `for subnode in node_list` loop of `_analyze_dimensions`:
either the early `return` taken for a `ref` dimension, or the final
`dims`/`optional` state. -/
inductive DimLoopResult : Type where
  | refReturn : String → DimLoopResult
  | finished : List String → Bool → DimLoopResult
deriving Repr, DecidableEq

/-- The per-`<dim>` loop of `_analyze_dimensions`, threading the `dims` list
and the `optional` flag.  `step` is the shared tail of one iteration: the
`required` bookkeeping, bracketing of optional dimensions and the
`dims[index] = dim` assignment. -/
def dimLoop : List Elem → List String → Bool → Except String DimLoopResult
  | [], dims, optional => .ok (.finished dims optional)
  | subnode :: rest, dims, optional =>
    let index := subnode.get "index" ""
    if ¬ isDigitStr index then .error msgNoIndex
    else
      let idx := pyParseNat index
      if idx = 0 then .error msgBadIndex
      else
        -- index -= 1; expand dims with "." placeholders when needed
        let i := idx - 1
        let nadd := i + 1 - dims.length
        let dims := dims ++ List.replicate nadd "."
        let step := fun (dim : String) =>
          if pyToLower (subnode.get "required" "true") = "false" then
            dimLoop rest (dims.set i ("[" ++ dim ++ "]")) true
          else if optional then
            (.error msgOrder : Except String DimLoopResult)
          else
            dimLoop rest (dims.set i dim) optional
        let dimVal := subnode.get? "value"
        if pyTruthy dimVal then
          step (dimVal.getD "")
        else if pyTruthy (subnode.get? "ref") then
          .ok (.refReturn (refDescriptor ((subnode.get? "ref").getD "")))
        else
          step "."

/-- `_analyze_dimensions`: dimension-rank reconciliation for one field. -/
def analyze_dimensions (parent : Elem) : Except String String := do
  match parent.tagged "dimensions" with
  | [node] =>
    match ← dimLoop (node.tagged "dim") [] false with
    | .refReturn s => return s
    | .finished dims optional =>
      let ndims := dims.length
      -- when the rank is missing, infer it when dimensions exist and none is optional
      let rank : Option String :=
        match node.get? "rank" with
        | some r => some r
        | none => if ¬ optional ∧ ndims ≠ 0 then some (toString ndims) else none
      let rank_is_fixed : Bool :=
        match rank with
        | some r => r ≠ "" && isDigitStr r
        | none => false
      if optional ∧ rank_is_fixed then
        .error msgFixedOptional
      else if rank_is_fixed ∧ ndims ≠ 0 ∧ pyParseNat (rank.getD "") ≠ ndims then
        .error msgRankCount
      else if pyTruthy rank ∧ ndims ≠ 0 then
        return " (Rank: " ++ rank.getD "" ++ ", Dimensions: [" ++ pyJoin ", " dims ++ "])"
      else if pyTruthy rank then
        return " (Rank: " ++ rank.getD "" ++ ")"
      else if ndims ≠ 0 then
        return " (Dimensions: [" ++ pyJoin ", " dims ++ "])"
      else
        return ""
  | _ => return ""

/-- Build a `<dim>` element from its optional attributes. -/
def dimElem (index value ref required : Option String) : Elem :=
  .mk "dim"
    ((match index with | some s => [("index", s)] | none => []) ++
     (match value with | some s => [("value", s)] | none => []) ++
     (match ref with | some s => [("ref", s)] | none => []) ++
     (match required with | some s => [("required", s)] | none => []))
    "" []

/-- Build a `<dimensions>` element from an optional rank and `<dim>` children. -/
def dimensionsElem (rank : Option String) (ds : List Elem) : Elem :=
  .mk "dimensions" (match rank with | some s => [("rank", s)] | none => []) "" ds

/-- Build a field element containing exactly one `<dimensions>` block. -/
def fieldWithDims (rank : Option String) (ds : List Elem) : Elem :=
  .mk "field" [] "" [dimensionsElem rank ds]

/-- A `<dim>` entry marked optional via `required="false"`. -/
def dimMarkedOptional (e : Elem) : Bool :=
  pyToLower (e.get "required" "true") == "false"

/-- A well-formed `<dim>` entry that cannot take the `ref` short-circuit:
valid positive index and (a truthy literal value, or no truthy reference). -/
def dimNoRefOk (e : Elem) : Bool :=
  isDigitStr (e.get "index" "") && (pyParseNat (e.get "index" "") != 0) &&
  (pyTruthy (e.get? "value") || !pyTruthy (e.get? "ref"))

/-- Entries at positions `k, k+1, ...` each tagged `dim`, carrying index
`position+1`, a non-empty literal value from `vs`, and not marked
`required="false"`. -/
def literalDimsFrom : Nat → List Elem → List String → Bool
  | _, [], [] => true
  | k, e :: es, v :: vs =>
      (e.tag == "dim") &&
      isDigitStr (e.get "index" "") &&
      (pyParseNat (e.get "index" "") == k + 1) &&
      (e.get? "value" == some v) && (v != "") &&
      !(pyToLower (e.get "required" "true") == "false") &&
      literalDimsFrom (k + 1) es vs
  | _, _, _ => false

/-- Some entry of the block is not marked optional. -/
def hasNonOptional (es : List Elem) : Bool :=
  es.any (fun e => ! dimMarkedOptional e)

/-- Some entry marked optional is followed (strictly later in declaration
order) by an entry not marked optional. -/
def hasOptThenReq : List Elem → Bool
  | [] => false
  | e :: rest => (dimMarkedOptional e && hasNonOptional rest) || hasOptThenReq rest

/-! ### `_get_doc_blocks` (nxdl.py lines 245-311) and `_get_doc_line` -/

/-- Error message for more than one `<doc>` child (the Python message also
carries the source line and file name, which are not part of this model). -/
def msgTooManyDoc : String := "Too many doc elements"

/-- Error message for a multi-line first block with no leading indentation. -/
def msgMissingIndent (name b0 : String) : String :=
  "Missing initial indentation in <doc> of " ++ name ++ " [" ++ b0 ++ "]"

/-- Error message for a line that does not start with the base indentation. -/
def msgBadIndent (name block indent line : String) : String :=
  "Bad indentation in <doc> of " ++ name ++ " [" ++ block ++ "]: expected \"" ++
    pyReplace indent "\t" "\\t" ++ "\" found \"" ++ pyReplace line "\t" "\\t" ++ "\"."

/-- Error message of `_get_doc_line` for multi-paragraph documentation. -/
def msgMultiParagraph (blocks : List String) : String :=
  "Unexpected multi-paragraph doc [" ++ pyJoin "|" blocks ++ "]"

/-- Error message of `_print_doc` when required documentation is absent. -/
def msgNoDocumentation (name : String) : String :=
  "No documentation for: " ++ name

/-- Scanner for `re.split("\n\\s*\n", text)`.  A (greedy, leftmost) match of
the separator starts at a newline whose following whitespace run contains at
least one further newline; it consumes that first newline and the whitespace
run up to and including the last newline of the run, and the text is split there.
Trailing non-newline whitespace of the run stays with the next block.  The
fuel argument is spent one unit per consumed character, so the recursion is
structural (the `0` branch is unreachable when the fuel starts at the text
length). -/
def splitBlocksAux : Nat → List Char → List Char → List (List Char)
  | _, [], acc => [acc.reverse]
  | 0, cs, acc => [acc.reverse ++ cs]
  | fuel + 1, c :: rest, acc =>
    if c = '\n' then
      let ws := rest.takeWhile isPySpace
      if '\n' ∈ ws then
        let trailing := (ws.reverse.takeWhile (fun d => ¬ d = '\n')).reverse
        let consumed := ws.length - trailing.length
        acc.reverse :: splitBlocksAux fuel (rest.drop consumed) []
      else
        splitBlocksAux fuel rest (c :: acc)
    else
      splitBlocksAux fuel rest (c :: acc)

/-- `re.split("\n\\s*\n", text)` on a string. -/
def splitBlocksStr (text : String) : List String :=
  (splitBlocksAux text.toList.length text.toList []).map String.mk

/-- One line of the indentation-stripping loop of `_get_doc_blocks`:
`line[:len(indent)] != indent` raises, otherwise `line[len(indent):]` is kept. -/
def stripLine (name indent block line : String) : Except String String :=
  if pyIsPrefixOf indent line then .ok (line.drop indent.length)
  else .error (msgBadIndent name block indent line)

/-- One block of the indentation-stripping loop of `_get_doc_blocks`. -/
def stripBlock (name indent block : String) : Except String String := do
  let outs ← (pySplitlines (pyRstrip block)).mapM (stripLine name indent block)
  return pyJoin "\n" outs

/-- `_get_doc_blocks`: split the `<doc>` content of a node into paragraph blocks on
blank-line separators and strip the common indentation taken from the
leading whitespace of the first block.  The serialise/regex-extract/HTML-unescape steps of
the Python code are modelled by the `text` payload of the `<doc>` element. -/
def get_doc_blocks (node : Elem) : Except String (List String) :=
  match node.tagged "doc" with
  | [] => .ok []  -- Python returns "", which has len 0 and iterates empty
  | [docnode] =>
    let text := docnode.text
    let blocks := splitBlocksStr text
    let b0 := blocks.headD ""
    if blocks.length = 1 ∧ (pySplitlines b0).length = 1 then
      .ok [pyStrip b0]
    else
      -- m = re.match(r"(\s*)(\S+)", blocks[0]); indent = m.group(1)
      let indent := String.mk (b0.toList.takeWhile isPySpace)
      if b0.toList.dropWhile isPySpace = [] then
        .ok [""]  -- `if not m: return [""]`
      else if indent = "" then
        .error (msgMissingIndent (pyStr (node.get? "name")) b0)
      else
        blocks.mapM (stripBlock (pyStr (node.get? "name")) indent)
  | _ => .error msgTooManyDoc

/-- `_get_doc_line`: the single-paragraph accessor, newlines folded to spaces. -/
def get_doc_line (node : Elem) : Except String String := do
  match ← get_doc_blocks node with
  | [] => return ""
  | [b] => return pyReplace b "\n" " "
  | blocks => .error (msgMultiParagraph blocks)

/-- Build a `<doc>` element from its text payload. -/
def docElem (text : String) : Elem :=
  .mk "doc" [] text []

/-- Build a named element carrying the given `<doc>` children. -/
def nodeWithDocs (name : Option String) (texts : List String) : Elem :=
  .mk "field" (match name with | some s => [("name", s)] | none => []) ""
    (texts.map docElem)

/-- The leading-whitespace run of the first block, the base indentation. -/
def leadWS (s : String) : String :=
  String.mk (s.toList.takeWhile isPySpace)

/-- Whether a block contains a non-whitespace character. -/
def hasContent (s : String) : Bool :=
  s.toList.dropWhile isPySpace ≠ []

/-- The lines of one block as seen by the stripping loop. -/
def blockLines (b : String) : List String :=
  pySplitlines (pyRstrip b)

/-- One block with the base indentation removed from each line. -/
def strippedBlock (indent b : String) : String :=
  pyJoin "\n" ((blockLines b).map (fun l => l.drop indent.length))

/-- Build an `<item>` element of an enumeration. -/
def enumItemElem (value : Option String) (docs : List String) : Elem :=
  .mk "item" (match value with | some s => [("value", s)] | none => []) ""
    (docs.map docElem)

/-- Build an `<enumeration>` element. -/
def enumerationElem (items : List Elem) : Elem :=
  .mk "enumeration" [] "" items


/-! ### Python slicing and substring search (for `get_first_parent_ref`) -/

/-- Python `s[i:j]` with possibly negative bounds. -/
def pySlice (s : String) (i j : Int) : String :=
  let cs := s.toList
  let n : Int := cs.length
  let i' := (if i < 0 then max (n + i) 0 else min i n).toNat
  let j' := (if j < 0 then max (n + j) 0 else min j n).toNat
  String.mk ((cs.take j').drop i')

/-- Python `s[i:]` with a possibly negative bound. -/
def pySliceFrom (s : String) (i : Int) : String :=
  pySlice s i (s.toList.length : Int)

/-- Scan for the first occurrence of a non-empty pattern, returning the
absolute index counted from `i`. -/
def findFromAux (ps : List Char) : List Char → Nat → Option Nat
  | [], i => if ps = [] then some i else none
  | c :: rest, i =>
    if ps.isPrefixOf (c :: rest) then some i else findFromAux ps rest (i + 1)

/-- Python `s.find(pat, start)` for a non-empty pattern: first occurrence
index at or after `start`, `-1` when absent. -/
def pyFindFrom (s pat : String) (start : Nat) : Int :=
  match findFromAux pat.toList (s.toList.drop start) start with
  | some i => (i : Int)
  | none => -1

/-- Python `s.rfind(pat)`: last occurrence index, `-1` when absent.
`go (k+1)` tries position `k` first and walks down. -/
def pyRfind (s pat : String) : Int :=
  go s.toList pat.toList (s.toList.length + 1)
where
  go (cs ps : List Char) : Nat → Int
    | 0 => -1
    | k + 1 =>
      if k + ps.length ≤ cs.length ∧ (cs.drop k).take ps.length = ps then (k : Int)
      else go cs ps k

/-! ### The collaborators and configuration -/

/-- One entry of the ancestor chain returned by the Inheritance Resolver
(`get_inherited_nodes(path, nx_name)[2]`); `attrib["nxdlpath"]` and
`attrib["nxdlbase"]` of the Python code. -/
structure ParentEntry where
  nxdlpath : String
  nxdlbase : String

/-- Modelled from the spec: the Anchor Registry collaborator
(`anchor_list.AnchorRegistry` is outside the reviewed sources).  `add`
registers an anchor name duplicate-safely, `flush_anchor_buffer` drains the
accumulated set, and `nxdl_file` records the source file being rendered. -/
structure AnchorRegistry where
  nxdl_file : Option String
  buffer : List String

def AnchorRegistry.add (r : AnchorRegistry) (a : String) : AnchorRegistry :=
  if a ∈ r.buffer then r else { r with buffer := r.buffer ++ [a] }

def AnchorRegistry.flush_anchor_buffer (r : AnchorRegistry) :
    List String × AnchorRegistry :=
  (r.buffer, { r with buffer := [] })

/-- One contributor record of the Contributor Lookup collaborator
(`get_file_contributors_via_api`): commit date, display name, login and
avatar URL. -/
structure Contrib where
  date : String
  name : String
  login : String
  avatar : String

/-- The environment of one invocation: everything the generator reads from
the file system, the network and module-level constants.  `source` is
`os.path.relpath(nxdl_file, get_nxdl_root())`, `rel_html` the forward-slashed
relative path, `contribution` whether the file lives in
`contributed_definitions`, `contribs` the Contributor Lookup response and
`resolve` the Inheritance Resolver (`None` models `FileNotFoundError`). -/
structure Env where
  nxdl_file : String
  source : String
  rel_html : String
  repo_url : String
  contribution : Bool
  contribs : Option (List Contrib)
  resolve : String → String → Option (List ParentEntry)

/-- The generator attributes consulted during one parse. -/
structure Cfg where
  use_application_defaults : Bool
  resolve : String → String → Option (List ParentEntry)

def INDENTATION_UNIT : String := "  "

def MIN_COLLAPSE_HINT_LINE_LENGTH : Nat := 20

def MAX_COLLAPSE_HINT_LINE_LENGTH : Nat := 80

def ENUMERATION_INLINE_LENGTH : Nat := 60

def CATEGORY_TO_LISTING : List (String × String) :=
  [("base", "base class"), ("application", "application definition")]

/-- `__name__` of the module when imported. -/
def moduleName : String := "dev_tools.docs.nxdl"

/-! ### `get_first_parent_ref` (nxdl.py lines 680-719) -/

/-- `get_first_parent_ref`: format the back-reference to the first ancestor
definition declaring the same path; resolver misses degrade to `""`. -/
def get_first_parent_ref (resolve : String → String → Option (List ParentEntry))
    (path tag : String) : String :=
  let k := pyFindFrom path "/" 1
  let nx_name := pySlice path 1 k
  let path := pySliceFrom path k
  match resolve path nx_name with
  | none => ""  -- FileNotFoundError is caught and suppressed
  | some parents =>
    if parents.length > 1 then
      let parent := parents.getD 1 ⟨"", ""⟩
      let parent_path := parent.nxdlpath
      let parent_path_segments := pySplitOn (pySliceFrom parent_path 1) "/"
      let base := parent.nxdlbase
      let parent_def_name := pySlice base (pyRfind base "/") (pyRfind base ".nxdl")
      -- case where the first parent is a base_class
      if parent_path_segments.headD "" = "" then ""
      -- special treatment for NXnote@type
      else if tag = "attribute" ∧ parent_def_name = "/NXnote" ∧ parent_path = "/type" then ""
      else
        let parent_path :=
          if tag = "attribute" then
            let pos := pyRfind parent_path "/"
            pySlice parent_path 0 pos ++ "@" ++ pySliceFrom parent_path (pos + 1)
          else parent_path
        let parent_display_name := pySliceFrom parent_def_name 1 ++ parent_path
        ":ref:`⤆ </" ++ parent_display_name ++ "-" ++ tag ++ ">`"
    else ""

/-! ### Status classifier and inline formatters (nxdl.py lines 229-243, 321-365) -/

/-- `_get_minOccurs`: attribute with a category-dependent default. -/
def get_minOccurs (cfg : Cfg) (node : Elem) : String :=
  node.get "minOccurs" (if cfg.use_application_defaults then "1" else "0")

/-- `_get_required_or_optional_text`: the optional/required/recommended label. -/
def get_required_or_optional_text (cfg : Cfg) (node : Elem) : String :=
  let tag := ((pySplitOn node.tag "\x7d").getLast?).getD ""
  if tag = "field" ∨ tag = "group" then
    let optional_default := ¬ cfg.use_application_defaults
    let optional : Bool := match node.get? "optional" with
      | some s => s == "true" || s == "1"
      | none => optional_default
    let recommended : Bool := match node.get? "recommended" with
      | some s => s == "true" || s == "1"
      | none => false
    let minOccurs := get_minOccurs cfg node
    if recommended then "(recommended) "
    else if minOccurs == "0" || optional then "(optional) "
    else if minOccurs == "1" then "(required) "
    else "(``minOccurs=" ++ minOccurs ++ "``) "
  else if tag = "attribute" then
    let optional_default := ¬ cfg.use_application_defaults
    let optional : Bool := match node.get? "optional" with
      | some s => s == "true" || s == "1"
      | none => optional_default
    let recommended : Bool := match node.get? "recommended" with
      | some s => s == "true" || s == "1"
      | none => false
    if recommended then "(recommended) "
    else if optional then "(optional) " else "(required) "
  else "(unknown tag: " ++ tag ++ ") "

/-- `_format_type`. -/
def format_type (node : Elem) : String :=
  let typ := node.get "type" ":ref:`NX_CHAR <NX_CHAR>`"
  if pyStartsWith typ "NX_" then ":ref:`" ++ typ ++ " <" ++ typ ++ ">`" else typ

/-- `_format_units`. -/
def format_units (node : Elem) : String :=
  let units := node.get "units" ""
  if units = "" then ""
  else
    let units :=
      if pyStartsWith units "NX_" then "\\ :ref:`" ++ units ++ " <" ++ units ++ ">`"
      else units
    " \x7bunits=" ++ units ++ "\x7d"

/-- `_hyperlink_target`: the emitted hyperlink-target text together with the
anchor name handed to the Anchor Registry (registration itself is applied by
`print_anchor_list`, preserving emission order; the emitted text does not
depend on whether a registry is present). -/
def hyperlink_target (parent_path name nxtype : String) : String × String :=
  let sep := if nxtype = "attribute" then "@" else "/"
  let target := parent_path ++ sep ++ name ++ "-" ++ nxtype
  (".. _" ++ target ++ ":\n", target)

/-! ### Documentation and enumeration rendering (nxdl.py lines 484-581) -/

/-- The block scan of `long_doc`: total line count and the first line longer
than two characters not starting with `.`, truncated to `maxc`. -/
def longDocScan (maxc : Nat) : List String → Nat → String → Bool → Nat × String
  | [], length, line, _ => (length, line)
  | block :: rest, length, line, fnd =>
    let lines := pySplitlines block
    let p := lines.foldl
      (fun (p : String × Bool) l =>
        if l.length > 2 && ¬ pyStartsWith l "." && ¬ p.2 then (l.take maxc, true) else p)
      (line, fnd)
    longDocScan maxc rest (length + lines.length) p.1 p.2

/-- `long_doc`: length, collapse-hint line and blocks of the doc of a node. -/
def long_doc (node : Elem) (left_margin : Nat) :
    Except String (Nat × String × List String) := do
  let blocks ← get_doc_blocks node
  let max_characters :=
    max MIN_COLLAPSE_HINT_LINE_LENGTH (MAX_COLLAPSE_HINT_LINE_LENGTH - left_margin)
  let p := longDocScan max_characters blocks 0 "documentation" false
  return (p.1, p.2, blocks)

/-- `_print_doc`: emit the documentation blocks of a node; an absent doc is an
empty line unless `required`, in which case it raises. -/
def print_doc (indent : String) (node : Elem) (required : Bool) :
    Except String (List String) := do
  let blocks ← get_doc_blocks node
  if blocks.isEmpty then
    if required then .error (msgNoDocumentation (pyStr (node.get? "name")))
    else return ["\n"]
  else
    return blocks.flatMap (fun block =>
      (pySplitlines block).map (fun line => indent ++ line ++ "\n") ++ ["\n"])

/-- `"``msg``"` of `_print_enumeration`; a missing `value` prints as `None`. -/
def show_as_typed_text (msg : Option String) : String :=
  "``" ++ pyStr msg ++ "``"

/-- `OrderedDict` assignment: update in place or append. -/
def odUpsert : List (Option String × String) → Option String → String →
    List (Option String × String)
  | [], k, d => [(k, d)]
  | (k', d') :: rest, k, d =>
    if k' = k then (k', d) :: rest else (k', d') :: odUpsert rest k d

/-- One step of the `docs` ordered-dictionary loop of `_print_enumeration`. -/
def enum_docs_step (acc : List (Option String × String)) (item : Elem) :
    Except String (List (Option String × String)) := do
  let doc ← get_doc_line item
  return odUpsert acc (item.get? "value") doc

/-- The `docs` ordered dictionary of `_print_enumeration`. -/
def enum_docs (items : List Elem) : Except String (List (Option String × String)) :=
  items.foldlM enum_docs_step []

/-- `_print_enumeration`: label and inline or bulleted value list. -/
def print_enumeration (indent : String) (parent : Elem) :
    Except String (List String) := do
  let node_list := parent.tagged "item"
  if node_list.isEmpty then
    return []  -- Python `return ""`: nothing is printed
  else
    let label := indent ++
      (if node_list.length = 1 then "Obligatory value:" else "Any of these values:")
    let docs ← enum_docs node_list
    let oneliner := pyJoin " | " (docs.map (fun p => show_as_typed_text p.1))
    if docs.any (fun p => p.2 ≠ "") ∨ oneliner.length > ENUMERATION_INLINE_LENGTH then
      return label :: "\n\n" ::
        docs.flatMap (fun p =>
          [indent ++ "  * " ++ show_as_typed_text p.1] ++
          (if p.2 ≠ "" then [": " ++ p.2] else []) ++ ["\n\n"]) ++ ["\n"]
    else
      return [label, " " ++ oneliner ++ "\n", "\n"]

/-- `_print_doc_enum`: optional collapse hint, the documentation and the
enumeration (when the node carries exactly one). -/
def print_doc_enum (indent : String) (node : Elem) (required : Bool) :
    Except String (List String) := do
  let node_list := node.tagged "enumeration"
  let ld ← long_doc node indent.length
  let doclen := ld.1
  let line := ld.2.1
  let collapse :=
    if node_list.length + doclen > 1 then
      (indent ++ "    ",
       [indent ++ INDENTATION_UNIT ++ ".. collapse:: " ++ line ++ " ...\n\n"])
    else (indent, ([] : List String))
  let docLines ← print_doc (collapse.1 ++ INDENTATION_UNIT) node required
  let enumLines ← match node_list with
    | [e] => print_enumeration (collapse.1 ++ INDENTATION_UNIT) e
    | _ => pure []
  return collapse.2 ++ docLines ++ enumLines

/-- `_print_if_deprecated`. -/
def print_if_deprecated (node : Elem) (indent : String) : List String :=
  match node.get? "deprecated" with
  | some d =>
    ["\n" ++ indent ++ ".. index:: deprecated\n\n",
     "\n" ++ indent ++ "**DEPRECATED**: " ++ d ++ "\n\n"]
  | none => []

/-! ### The tree traversal (nxdl.py lines 565-575, 583-674) -/

/-- `_print_attribute`: hyperlink target, index entry, summary line and doc
of one attribute; the second component is the anchor handed to the registry. -/
def print_attribute (cfg : Cfg) (kind : String) (node : Elem) (optional : String)
    (indent parent_path : String) : Except String (List String × List String) := do
  let name := pyStr (node.get? "name")
  let ht := hyperlink_target parent_path name "attribute"
  let c1 := indent ++ ht.1 ++ "\n"
  let c2 := indent ++ ".. index:: " ++ name ++ " (" ++ kind ++ " attribute)\n\n"
  let c3 := indent ++ "**@" ++ name ++ "**: " ++ optional ++ format_type node ++
    format_units node ++ " " ++
    get_first_parent_ref cfg.resolve (parent_path ++ "/" ++ name) "attribute" ++ "\n\n"
  let docLines ← print_doc_enum indent node false
  return (c1 :: c2 :: c3 :: docLines, [ht.2])

/-- The `nx:field` pass of `_print_full_tree` for one field. -/
def render_field (cfg : Cfg) (indent parent_path : String) (node : Elem) :
    Except String (List String × List String) := do
  let name := pyStr (node.get? "name")
  let dims ← analyze_dimensions node
  let optional_text := get_required_or_optional_text cfg node
  let ht := hyperlink_target parent_path name "field"
  let c1 := indent ++ ht.1 ++ "\n"
  let c2 := indent ++ ".. index:: " ++ name ++ " (field)\n\n"
  let c3 := indent ++ "**" ++ name ++ "**: " ++ optional_text ++ format_type node ++
    dims ++ format_units node ++ " " ++
    get_first_parent_ref cfg.resolve (parent_path ++ "/" ++ name) "field" ++ "\n\n"
  let dep := print_if_deprecated node (indent ++ INDENTATION_UNIT)
  let docLines ← print_doc_enum indent node false
  let sub ← (node.tagged "attribute").foldlM
    (fun (acc : List String × List String) subnode => do
      let opt := get_required_or_optional_text cfg subnode
      let pr ← print_attribute cfg "field" subnode opt (indent ++ INDENTATION_UNIT)
        (parent_path ++ "/" ++ name)
      return (acc.1 ++ pr.1, acc.2 ++ pr.2)) ([], [])
  return (c1 :: c2 :: c3 :: (dep ++ docLines ++ sub.1), ht.2 :: sub.2)

/-- The `nx:link` pass of `_print_full_tree` for one link. -/
def render_link (indent parent_path : String) (node : Elem) :
    Except String (List String × List String) := do
  let name := pyStr (node.get? "name")
  let ht := hyperlink_target parent_path name "link"
  let c1 := indent ++ ht.1 ++ "\n"
  let c2 := indent ++ "**" ++ name ++ "**: :ref:`link<Design-Links>` (suggested target: ``" ++
    pyStr (node.get? "target") ++ "``)\n\n"
  let docLines ← print_doc_enum indent node false
  return (c1 :: c2 :: docLines, [ht.2])

/-- `typ.lstrip("NX").upper()` of the unnamed-group fallback. -/
def lstripNXUpper (typ : String) : String :=
  String.mk ((typ.toList.dropWhile (fun c => c = 'N' ∨ c = 'X')).map Char.toUpper)

mutual

/-- The `nx:group` pass of `_print_full_tree`: walk the children in document
order, render each group and recurse into it. -/
def render_groups (cfg : Cfg) (indent parent_path : String) :
    List Elem → Except String (List String × List String)
  | [] => .ok ([], [])
  | node :: rest =>
    if node.tag = "group" then do
      let name0 := node.get "name" ""
      let typ0 := node.get "type" "untyped (this is an error; please report)"
      let optional_text := get_required_or_optional_text cfg node
      let nt :=
        if pyStartsWith typ0 "NX" then
          ((if name0 = "" then lstripNXUpper typ0 else name0), ":ref:`" ++ typ0 ++ "`")
        else (name0, typ0)
      let name := nt.1
      let ht := hyperlink_target parent_path name "group"
      let c1 := indent ++ ht.1 ++ "\n"
      let c2 := indent ++ "**" ++ name ++ "**: " ++ optional_text ++ nt.2 ++ " " ++
        get_first_parent_ref cfg.resolve (parent_path ++ "/" ++ name) "group" ++ "\n\n"
      let dep := print_if_deprecated node (indent ++ INDENTATION_UNIT)
      let docLines ← print_doc_enum indent node false
      let sub ← (node.tagged "attribute").foldlM
        (fun (acc : List String × List String) subnode => do
          let opt := get_required_or_optional_text cfg subnode
          let pr ← print_attribute cfg "group" subnode opt (indent ++ INDENTATION_UNIT)
            (parent_path ++ "/" ++ name)
          return (acc.1 ++ pr.1, acc.2 ++ pr.2)) ([], [])
      let nodename := name ++ "/" ++ pyStr (node.get? "type")
      let inner ← print_full_tree cfg node nodename (indent ++ INDENTATION_UNIT)
        (parent_path ++ "/" ++ name)
      let later ← render_groups cfg indent parent_path rest
      return (c1 :: c2 :: (dep ++ docLines ++ sub.1) ++ inner.1 ++ later.1,
              ht.2 :: sub.2 ++ inner.2 ++ later.2)
    else render_groups cfg indent parent_path rest

/-- `_print_full_tree`: fields, then groups (recursively), then links. -/
def print_full_tree (cfg : Cfg) (parent : Elem) (_name : String)
    (indent parent_path : String) : Except String (List String × List String) :=
  match parent with
  | .mk _ _ _ children => do
    let fieldsR ← (children.filter (fun c => c.tag = "field")).foldlM
      (fun (acc : List String × List String) node => do
        let pr ← render_field cfg indent parent_path node
        return (acc.1 ++ pr.1, acc.2 ++ pr.2)) ([], [])
    let groupsR ← render_groups cfg indent parent_path children
    let linksR ← (children.filter (fun c => c.tag = "link")).foldlM
      (fun (acc : List String × List String) node => do
        let pr ← render_link indent parent_path node
        return (acc.1 ++ pr.1, acc.2 ++ pr.2)) ([], [])
    return (fieldsR.1 ++ groupsR.1 ++ linksR.1, fieldsR.2 ++ groupsR.2 ++ linksR.2)

end

/-! ### `//nx:group` (the groups-cited scan) -/

mutual

/-- All descendant `group` elements, in document (preorder) order. -/
def collectGroups : Elem → List Elem
  | .mk _ _ _ children => collectGroupsList children

def collectGroupsList : List Elem → List Elem
  | [] => []
  | c :: cs => (if c.tag = "group" then [c] else []) ++ collectGroups c ++ collectGroupsList cs

end

/-! ### `_print_anchor_list` and `_parse_nxdl_file` (nxdl.py lines 62-227) -/

/-- The lines of the Hypertext Anchors section for a drained anchor buffer. -/
def anchor_list_lines (anchors : List String) : List String :=
  if anchors.isEmpty then []
  else
    ["\n", "Hypertext Anchors\n", "-----------------\n\n",
     "List of hypertext anchors for all groups, fields,\nattributes, and links defined in this class.\n\n\n",
     pyJoin "\n" ((pySorted (fun a b => pyStrLe (pyToLower a) (pyToLower b)) anchors).map
       (fun ref => "* :ref:`" ++ ref ++ " <" ++ ref ++ ">`")) ++ "\n"]

/-- `_print_anchor_list`: nothing without a registry; otherwise the anchors
requested during traversal are registered in emission order, the buffer is
drained and the section is printed (omitted when the buffer is empty). -/
def print_anchor_list (reg : Option AnchorRegistry) (anchors : List String) :
    List String × Option AnchorRegistry :=
  match reg with
  | none => ([], none)
  | some r =>
    let r := anchors.foldl AnchorRegistry.add r
    let fl := r.flush_anchor_buffer
    (anchor_list_lines fl.1, some fl.2)

/-- The body of `_parse_nxdl_file` up to (excluding) `_print_anchor_list`:
all emitted line chunks plus the anchors requested from the registry, in
emission order. -/
def parse_body (env : Env) (root : Elem) : Except String (List String × List String) := do
  let nxclass_nameOpt := root.get? "name"
  -- root.attrib["category"]: KeyError when the attribute is missing
  let category ← match root.get? "category" with
    | some c => pure c
    | none => .error "KeyError: category"
  -- len(None) raises TypeError before the prefix check
  let nxclass_name ← match nxclass_nameOpt with
    | some s => pure s
    | none => .error "TypeError: object of type NoneType has no len()"
  let title := nxclass_name
  let parent_path := "/" ++ nxclass_name
  if nxclass_name.length < 2 ∨ nxclass_name.take 2 ≠ "NX" then
    .error ("Unexpected class name \"" ++ nxclass_name ++ "\"; does not start with NX")
  else
  let lexical_name := nxclass_name.drop 2
  let listing_category ← match (CATEGORY_TO_LISTING.find? (fun p => p.1 = category)).map (·.2) with
    | some lc => pure lc
    | none => .error ("KeyError: " ++ category)
  let use_application_defaults := category = "application"
  let cfg : Cfg := ⟨use_application_defaults, env.resolve⟩
  -- ReST comments and section header
  let header : List String :=
    [".. auto-generated by " ++ moduleName ++ " from the NXDL source " ++ env.source ++
       " -- DO NOT EDIT\n",
     "\n",
     ".. index::\n",
     "    ! " ++ nxclass_name ++ " (" ++ listing_category ++ ")\n",
     "    ! " ++ lexical_name ++ " (" ++ listing_category ++ ")\n",
     "    see: " ++ lexical_name ++ " (" ++ listing_category ++ "); " ++ nxclass_name ++ "\n",
     "\n",
     ".. _" ++ nxclass_name ++ ":\n\n",
     pyRepeat "=" title.length ++ "\n",
     title ++ "\n",
     pyRepeat "=" title.length ++ "\n"]
  -- category & parent class
  let extends_ := match root.get? "extends" with
    | none => "none"
    | some e => ":ref:`" ++ e ++ "`"
  -- contributors block
  let contribLines : List String := match env.contribs with
    | none => []
    | some dct =>
      ["\n", "..\n", "    Contributors List\n"] ++
      dct.flatMap (fun c =>
        ["\n", "    .. |contrib_name| replace:: " ++
          pyJoin "|" [c.name, c.login, c.avatar, (pySplitOn c.date "T").headD ""] ++ "\n"])
  let statusLines : List String :=
    ["\n", "**Status**:\n\n",
     if env.contribution then
       "  *" ++ listing_category ++ "* (contribution), extends " ++ extends_ ++ "\n"
     else
       "  " ++ listing_category ++ ", extends " ++ extends_ ++ "\n"]
  let deprecatedLines := print_if_deprecated root ""
  -- official description of this class (documentation required at the root)
  let descHead : List String := ["\n", "**Description**:\n\n"]
  let descLines ← print_doc_enum "" root true
  -- symbol list
  let symHead : List String := ["**Symbols**:\n\n"]
  let symLines ← match root.tagged "symbols" with
    | [] => pure ["  No symbol table\n\n"]
    | [symnode] => do
        let tbl ← print_doc_enum "" symnode false
        let entries ← (symnode.tagged "symbol").foldlM
          (fun (acc : List String) sym => do
            let doc ← get_doc_line sym
            return acc ++ ["  **" ++ pyStr (sym.get? "name") ++ "**"] ++
              (if doc ≠ "" then [": " ++ doc] else []) ++ ["\n\n"]) []
        pure (tbl ++ entries)
    | _ => .error ("Invalid symbol table in " ++ nxclass_name)
  -- group references (`//nx:group`; a missing type raises AttributeError)
  let grpHead : List String := ["**Groups cited**:\n"]
  let groupTypes ← (collectGroups root).foldlM
    (fun (acc : List String) g => do
      match g.get? "type" with
      | none => .error "AttributeError: NoneType has no attribute startswith"
      | some t => return (if pyStartsWith t "NX" ∧ ¬ acc.contains t then acc ++ [t] else acc)) []
  let grpLines : List String :=
    if groupTypes.isEmpty then ["  none\n\n"]
    else
      ["  " ++ pyJoin ", " (pySorted pyStrLe
          (groupTypes.map (fun g => ":ref:`" ++ g ++ "`"))) ++ "\n\n",
       ".. index:: " ++ pyJoin ", "
          (groupTypes.map (fun g => g ++ " (base class); used in " ++ listing_category)) ++ "\n\n"]
  -- full tree
  let structHead : List String := ["**Structure**:\n\n"]
  let rootAttrs ← (root.tagged "attribute").foldlM
    (fun (acc : List String × List String) subnode => do
      let opt := get_required_or_optional_text cfg subnode
      let pr ← print_attribute cfg "file" subnode opt INDENTATION_UNIT parent_path
      return (acc.1 ++ pr.1, acc.2 ++ pr.2)) ([], [])
  let tree ← print_full_tree cfg root nxclass_name INDENTATION_UNIT parent_path
  return (header ++ contribLines ++ statusLines ++ deprecatedLines ++
      descHead ++ descLines ++ symHead ++ symLines ++ grpHead ++ grpLines ++
      structHead ++ rootAttrs.1 ++ tree.1,
    rootAttrs.2 ++ tree.2)

/-- The trailing NXDL Source pointer lines. -/
def nxdl_source_lines (env : Env) : List String :=
  ["\n", "**NXDL Source**:\n", "  " ++ env.repo_url ++ "/" ++ env.rel_html ++ "\n"]

/-- `_parse_nxdl_file`: the body, the anchor list and the source pointer. -/
def parse_nxdl_file (env : Env) (reg : Option AnchorRegistry) (root : Elem) :
    Except String (List String × Option AnchorRegistry) := do
  let body ← parse_body env root
  let pal := print_anchor_list reg body.2
  return (body.1 ++ pal.1 ++ nxdl_source_lines env, pal.2)

/-! ### `NXClassDocGenerator.__call__` (nxdl.py lines 36-60) -/

/-- The generator attributes touched by `__call__`/`_reset`.  On failure the
partially filled internal buffer (never handed to the caller) is modelled as
`none`. -/
structure GenState where
  rst_lines : Option (List String)
  anchor_registry : Option AnchorRegistry
  listing_category : Option String
  use_application_defaults : Option Bool

/-- The state `_reset` leaves behind (`_rst_lines` itself is not reset). -/
def GenState.afterReset (lines : Option (List String)) : GenState :=
  { rst_lines := lines, anchor_registry := none,
    listing_category := none, use_application_defaults := none }

/-- The single error shape observed by callers: `NXDLParseError(nxdl_file)`. -/
def NXDLParseError (nxdl_file : String) : String :=
  "NXDLParseError: " ++ nxdl_file

/-- The registry as prepared by `__call__`: when one is given (a registry
object is truthy), its `nxdl_file` attribute is set to the rendered file. -/
def call_reg (env : Env) : Option AnchorRegistry → Option AnchorRegistry
  | some r => some { r with nxdl_file := some env.nxdl_file }
  | none => none

/-- `NXClassDocGenerator.__call__`: start a fresh line buffer (the prior
generator state is never read), attach the nxdl file to the registry when one
is given, parse, wrap any failure in `NXDLParseError`, and reset. -/
def call (_st : GenState) (env : Env) (root : Elem)
    (anchor_registry : Option AnchorRegistry) :
    Except String (List String) × GenState :=
  let reg := call_reg env anchor_registry
  match parse_nxdl_file env reg root with
  | .ok p => (.ok p.1, GenState.afterReset (some p.1))
  | .error _ => (.error (NXDLParseError env.nxdl_file), GenState.afterReset none)

/-- A concrete environment used by witnesses. -/
def envW : Env :=
  { nxdl_file := "base_classes/NXtest.nxdl.xml"
    source := "base_classes/NXtest.nxdl.xml"
    rel_html := "base_classes/NXtest.nxdl.xml"
    repo_url := "https://github.com/nexusformat/definitions/blob/main"
    contribution := false
    contribs := none
    resolve := fun _ _ => none }

/-- A concrete minimal valid document used by witnesses. -/
def rootW : Elem :=
  .mk "definition" [("name", "NXtest"), ("category", "base")] ""
    [docElem "A tiny test class."]

/-- A concrete document with one field, used by the C10 witness. -/
def rootW2 : Elem :=
  .mk "definition" [("name", "NXtest"), ("category", "base")] ""
    [docElem "A tiny test class.",
     .mk "field" [("name", "f1")] "" [docElem "Field doc."]]




/-! ## Theorems -/

/-! ### Helper lemmas about `dimLoop` -/

lemma list_set_append_length (l : List String) (a b : String) :
    (l ++ [a]).set l.length b = l ++ [b] := by
  induction l with
  | nil => rfl
  | cons x xs ih => simp [ih]

lemma dimLoop_cons_notOpt (e : Elem) (es : List Elem) (dims : List String) (v : String)
    (hidx : isDigitStr (e.get "index" "") = true)
    (hval : pyParseNat (e.get "index" "") = dims.length + 1)
    (hv : e.get? "value" = some v) (hvne : v ≠ "")
    (hreq : ¬ pyToLower (e.get "required" "true") = "false") :
    dimLoop (e :: es) dims false = dimLoop es (dims ++ [v]) false := by
  simp only [dimLoop, hidx, hval, hv, pyTruthy]
  have h1 : dims.length + 1 - 1 + 1 - dims.length = 1 := by omega
  simp [h1, hvne, hreq, list_set_append_length]

lemma dimLoop_cons_opt (e : Elem) (es : List Elem) (dims : List String) (v : String)
    (hidx : isDigitStr (e.get "index" "") = true)
    (hval : pyParseNat (e.get "index" "") = dims.length + 1)
    (hv : e.get? "value" = some v) (hvne : v ≠ "")
    (hreq : pyToLower (e.get "required" "true") = "false") (b : Bool) :
    dimLoop (e :: es) dims b = dimLoop es (dims ++ ["[" ++ v ++ "]"]) true := by
  simp only [dimLoop, hidx, hval, hv, pyTruthy]
  have h1 : dims.length + 1 - 1 + 1 - dims.length = 1 := by omega
  simp [h1, hvne, hreq, list_set_append_length]

lemma dimLoop_cons_ref (e : Elem) (es : List Elem) (dims : List String) (b : Bool)
    (hidx : isDigitStr (e.get "index" "") = true)
    (hpos : pyParseNat (e.get "index" "") ≠ 0)
    (hnov : pyTruthy (e.get? "value") = false)
    (href : pyTruthy (e.get? "ref") = true) :
    dimLoop (e :: es) dims b =
      .ok (.refReturn (refDescriptor ((e.get? "ref").getD ""))) := by
  simp [dimLoop, hidx, hpos, hnov, href]

lemma dimLoop_cons_orderError (e : Elem) (es : List Elem) (dims : List String)
    (hidx : isDigitStr (e.get "index" "") = true)
    (hpos : pyParseNat (e.get "index" "") ≠ 0)
    (hvr : pyTruthy (e.get? "value") = true ∨ pyTruthy (e.get? "ref") = false)
    (hreq : ¬ pyToLower (e.get "required" "true") = "false") :
    dimLoop (e :: es) dims true = .error msgOrder := by
  rcases hvr with hv | hr
  · simp [dimLoop, hidx, hpos, hv, hreq]
  · by_cases hv : pyTruthy (e.get? "value") = true
    · simp [dimLoop, hidx, hpos, hv, hreq]
    · simp at hv
      simp [dimLoop, hidx, hpos, hv, hr, hreq]

lemma dimLoop_cons_optStep (e : Elem) (es : List Elem) (dims : List String) (b : Bool)
    (hok : dimNoRefOk e = true) (hopt : dimMarkedOptional e = true) :
    ∃ dims', dimLoop (e :: es) dims b = dimLoop es dims' true := by
  simp only [dimNoRefOk, Bool.and_eq_true, Bool.or_eq_true, bne_iff_ne, ne_eq,
    Bool.not_eq_true'] at hok
  obtain ⟨⟨hidx, hpos⟩, hvr⟩ := hok
  simp only [dimMarkedOptional, beq_iff_eq] at hopt
  rcases hvr with hv | hr
  · simp [dimLoop, hidx, hpos, hv, hopt]
    exact ⟨_, rfl⟩
  · by_cases hv : pyTruthy (e.get? "value") = true
    · simp [dimLoop, hidx, hpos, hv, hopt]
      exact ⟨_, rfl⟩
    · simp at hv
      simp [dimLoop, hidx, hpos, hv, hr, hopt]
      exact ⟨_, rfl⟩

lemma dimLoop_cons_reqStep (e : Elem) (es : List Elem) (dims : List String)
    (hok : dimNoRefOk e = true) (hopt : dimMarkedOptional e = false) :
    ∃ dims', dimLoop (e :: es) dims false = dimLoop es dims' false := by
  simp only [dimNoRefOk, Bool.and_eq_true, Bool.or_eq_true, bne_iff_ne, ne_eq,
    Bool.not_eq_true'] at hok
  obtain ⟨⟨hidx, hpos⟩, hvr⟩ := hok
  simp only [dimMarkedOptional, beq_eq_false_iff_ne, ne_eq] at hopt
  rcases hvr with hv | hr
  · simp [dimLoop, hidx, hpos, hv, hopt]
    exact ⟨_, rfl⟩
  · by_cases hv : pyTruthy (e.get? "value") = true
    · simp [dimLoop, hidx, hpos, hv, hopt]
      exact ⟨_, rfl⟩
    · simp at hv
      simp [dimLoop, hidx, hpos, hv, hr, hopt]
      exact ⟨_, rfl⟩

lemma dimLoop_append (xs ys : List Elem) :
    ∀ (dims dims' : List String) (b b' : Bool),
    dimLoop xs dims b = .ok (.finished dims' b') →
    dimLoop (xs ++ ys) dims b = dimLoop ys dims' b' := by
  induction xs with
  | nil =>
    intro dims dims' b b' h
    simp only [dimLoop] at h
    obtain ⟨h1, h2⟩ : dims = dims' ∧ b = b' := by
      injection h with h
      injection h with h1 h2
      exact ⟨h1, h2⟩
    subst h1; subst h2
    simp
  | cons e xs ih =>
    intro dims dims' b b' h
    simp only [List.cons_append]
    simp only [dimLoop] at h ⊢
    by_cases h1 : isDigitStr (e.get "index" "") = true
    · simp only [h1, not_true_eq_false, if_false] at h ⊢
      by_cases h2 : pyParseNat (e.get "index" "") = 0
      · simp [h2] at h
      · simp only [h2, if_neg, ite_false] at h ⊢
        by_cases h3 : pyTruthy (e.get? "value") = true
        · simp only [h3, if_true, ite_true] at h ⊢
          by_cases h4 : pyToLower (e.get "required" "true") = "false"
          · simp only [h4, if_true, ite_true] at h ⊢
            exact ih _ _ _ _ h
          · simp only [h4, if_false, ite_false] at h ⊢
            cases b
            · simp only [Bool.false_eq_true, if_false, ite_false] at h ⊢
              exact ih _ _ _ _ h
            · simp at h
        · simp only [h3, if_false, ite_false] at h ⊢
          by_cases h5 : pyTruthy (e.get? "ref") = true
          · simp [h5] at h
          · simp only [h5, if_false, ite_false] at h ⊢
            by_cases h4 : pyToLower (e.get "required" "true") = "false"
            · simp only [h4, if_true, ite_true] at h ⊢
              exact ih _ _ _ _ h
            · simp only [h4, if_false, ite_false] at h ⊢
              cases b
              · simp only [Bool.false_eq_true, if_false, ite_false] at h ⊢
                exact ih _ _ _ _ h
              · simp at h
    · simp [h1] at h

lemma dimLoop_literal (es : List Elem) :
    ∀ (vs : List String) (dims : List String),
    literalDimsFrom dims.length es vs = true →
    dimLoop es dims false = .ok (.finished (dims ++ vs) false) := by
  induction es with
  | nil =>
    intro vs dims h
    cases vs with
    | nil => simp [dimLoop]
    | cons v vs => simp [literalDimsFrom] at h
  | cons e es ih =>
    intro vs dims h
    cases vs with
    | nil => simp [literalDimsFrom] at h
    | cons v vs =>
      simp only [literalDimsFrom, Bool.and_eq_true, beq_iff_eq, bne_iff_ne, ne_eq,
        Bool.not_eq_true', beq_eq_false_iff_ne] at h
      obtain ⟨⟨⟨⟨⟨⟨htag, hidx⟩, hval⟩, hv⟩, hvne⟩, hreq⟩, hrest⟩ := h
      rw [dimLoop_cons_notOpt e es dims v hidx hval hv hvne (by simp [hreq])]
      have := ih vs (dims ++ [v]) (by simpa using hrest)
      rw [this]
      simp

lemma literalDims_tags (es : List Elem) :
    ∀ (k : Nat) (vs : List String), literalDimsFrom k es vs = true →
    es.filter (fun c => c.tag = "dim") = es := by
  induction es with
  | nil => intro k vs _; rfl
  | cons e es ih =>
    intro k vs h
    cases vs with
    | nil => simp [literalDimsFrom] at h
    | cons v vs =>
      simp only [literalDimsFrom, Bool.and_eq_true, beq_iff_eq] at h
      obtain ⟨⟨⟨⟨⟨⟨htag, _⟩, _⟩, _⟩, _⟩, _⟩, hrest⟩ := h
      simp [List.filter, htag, ih (k+1) vs hrest]



/-- C1: for a dimensions block whose `<dim>` entries at indices `1..n` each
carry a non-empty literal value, none marked `required="false"`, and with no
declared `rank` attribute, `_analyze_dimensions` infers rank `n` (the number
of dimensions) and returns the descriptor stating that rank and the dimension
values in index order.  The two `toString`-hypotheses state that the decimal
print of `n` is a digit string parsing back to `n`; the witness discharges
them at `n = 3`. -/
theorem thm_C1 (es : List Elem) (vs : List String) (hne : vs ≠ [])
    (h : literalDimsFrom 0 es vs = true)
    (hds : isDigitStr (toString vs.length) = true)
    (hp : pyParseNat (toString vs.length) = vs.length) :
    analyze_dimensions (fieldWithDims none es) =
      .ok (" (Rank: " ++ toString vs.length ++ ", Dimensions: [" ++ pyJoin ", " vs ++ "])") := by
  have hfilter : es.filter (fun c => c.tag = "dim") = es := literalDims_tags es 0 vs h
  have hloop : dimLoop es [] false = .ok (.finished vs false) := by
    have := dimLoop_literal es vs [] (by simpa using h)
    simpa using this
  have htagged : (fieldWithDims none es).tagged "dimensions" = [dimensionsElem none es] := by
    simp [fieldWithDims, Elem.tagged, Elem.children, dimensionsElem, Elem.tag]
  have hdims : (dimensionsElem none es).tagged "dim" = es := by
    simp only [dimensionsElem, Elem.tagged, Elem.children]
    exact hfilter
  have hlen : vs.length ≠ 0 := by
    cases vs
    · exact absurd rfl hne
    · simp
  have hrank : (dimensionsElem none es).get? "rank" = none := by
    simp [dimensionsElem, Elem.get?, Elem.attrsOf]
  have hne' : toString vs.length ≠ "" := by
    simp only [isDigitStr, Bool.and_eq_true, bne_iff_ne, ne_eq, decide_eq_true_eq] at hds
    simpa using hds.1
  simp only [analyze_dimensions, htagged, hdims, hloop, hrank]
  simp [bind, Except.bind, pure, Except.pure, hne, hlen, hds, hp, hne', pyTruthy]

/-- Witness for C1 at the instance cited by the claim: indices 1,2,3 with values
a,b,c yield "rank 3, dims [a,b,c]". -/
theorem wit_C1 :
    analyze_dimensions (fieldWithDims none
      [dimElem (some "1") (some "a") none none,
       dimElem (some "2") (some "b") none none,
       dimElem (some "3") (some "c") none none]) =
      .ok " (Rank: 3, Dimensions: [a, b, c])" := by
  rw [thm_C1 [dimElem (some "1") (some "a") none none,
       dimElem (some "2") (some "b") none none,
       dimElem (some "3") (some "c") none none]
      ["a", "b", "c"] (by decide) (by decide) (by decide) (by decide)]
  rfl



/-- C2 counterexample: on the input cited by the claim (values a,b,c plus a fourth
optional d, no declared rank) the code returns the rank-less descriptor
" (Dimensions: [a, b, c, [d]])", not the claimed "rank 3" descriptor. -/
theorem cex_C2 :
    analyze_dimensions (fieldWithDims none
      [dimElem (some "1") (some "a") none none,
       dimElem (some "2") (some "b") none none,
       dimElem (some "3") (some "c") none none,
       dimElem (some "4") (some "d") none (some "false")]) =
      .ok " (Dimensions: [a, b, c, [d]])" ∧
    (" (Dimensions: [a, b, c, [d]])" : String) ≠ " (Rank: 3, Dimensions: [a, b, c, [d]])" :=
  ⟨by rfl, by decide⟩

/-- C2 (amended): with entries at indices 1..4 carrying values a,b,c,d where
the fourth is marked `required="false"` and no rank is declared, the resolver
omits the rank entirely (rank is inferred only when no dimension is optional)
and returns "dims [a, b, c, [d]]" with the optional dimension bracketed. -/
theorem thm_C2 (a b c d : String) (ha : a ≠ "") (hb : b ≠ "") (hc : c ≠ "") (hd : d ≠ "") :
    analyze_dimensions (fieldWithDims none
      [dimElem (some "1") (some a) none none,
       dimElem (some "2") (some b) none none,
       dimElem (some "3") (some c) none none,
       dimElem (some "4") (some d) none (some "false")]) =
      .ok (" (Dimensions: [" ++ pyJoin ", " [a, b, c, "[" ++ d ++ "]"] ++ "])") := by
  have hlit : literalDimsFrom 0
      [dimElem (some "1") (some a) none none,
       dimElem (some "2") (some b) none none,
       dimElem (some "3") (some c) none none] [a, b, c] = true := by
    simp [literalDimsFrom, dimElem, Elem.get, Elem.get?, Elem.attrsOf, Elem.tag,
      ha, hb, hc, isDigitStr, pyParseNat, pyToLower]
  have hpre : dimLoop
      [dimElem (some "1") (some a) none none,
       dimElem (some "2") (some b) none none,
       dimElem (some "3") (some c) none none] [] false =
      .ok (.finished [a, b, c] false) := by
    have := dimLoop_literal _ [a, b, c] [] (by simpa using hlit)
    simpa using this
  have hloop : dimLoop
      [dimElem (some "1") (some a) none none,
       dimElem (some "2") (some b) none none,
       dimElem (some "3") (some c) none none,
       dimElem (some "4") (some d) none (some "false")] [] false =
      .ok (.finished [a, b, c, "[" ++ d ++ "]"] true) := by
    have happ := dimLoop_append
      [dimElem (some "1") (some a) none none,
       dimElem (some "2") (some b) none none,
       dimElem (some "3") (some c) none none]
      [dimElem (some "4") (some d) none (some "false")] [] [a, b, c] false false hpre
    simp only [List.cons_append, List.nil_append] at happ
    rw [happ]
    rw [dimLoop_cons_opt (dimElem (some "4") (some d) none (some "false")) [] [a, b, c] d
      (by rfl) (by rfl) (by rfl) hd (by rfl) false]
    rfl
  have htagged : (fieldWithDims none
      [dimElem (some "1") (some a) none none,
       dimElem (some "2") (some b) none none,
       dimElem (some "3") (some c) none none,
       dimElem (some "4") (some d) none (some "false")]).tagged "dimensions" =
      [dimensionsElem none
        [dimElem (some "1") (some a) none none,
         dimElem (some "2") (some b) none none,
         dimElem (some "3") (some c) none none,
         dimElem (some "4") (some d) none (some "false")]] := by
    simp [fieldWithDims, Elem.tagged, Elem.children, dimensionsElem, Elem.tag]
  have hdims : (dimensionsElem none
      [dimElem (some "1") (some a) none none,
       dimElem (some "2") (some b) none none,
       dimElem (some "3") (some c) none none,
       dimElem (some "4") (some d) none (some "false")]).tagged "dim" =
      [dimElem (some "1") (some a) none none,
       dimElem (some "2") (some b) none none,
       dimElem (some "3") (some c) none none,
       dimElem (some "4") (some d) none (some "false")] := by
    simp [dimensionsElem, Elem.tagged, Elem.children, dimElem, Elem.tag, List.filter]
  have hrank : (dimensionsElem none
      [dimElem (some "1") (some a) none none,
       dimElem (some "2") (some b) none none,
       dimElem (some "3") (some c) none none,
       dimElem (some "4") (some d) none (some "false")]).get? "rank" = none := by
    simp [dimensionsElem, Elem.get?, Elem.attrsOf]
  simp only [analyze_dimensions, htagged, hdims, hloop, hrank]
  simp [bind, Except.bind, pure, Except.pure, pyTruthy]

/-- Witness for the amended C2 at concrete values. -/
theorem wit_C2 :
    analyze_dimensions (fieldWithDims none
      [dimElem (some "1") (some "a") none none,
       dimElem (some "2") (some "b") none none,
       dimElem (some "3") (some "c") none none,
       dimElem (some "4") (some "d") none (some "false")]) =
      .ok " (Dimensions: [a, b, c, [d]])" := by
  rw [thm_C2 "a" "b" "c" "d" (by decide) (by decide) (by decide) (by decide)]
  rfl



/-- C3 counterexample: a `<dim>` carrying a reference attribute *and* a
literal value does not short-circuit — the value wins and the ordinary
descriptor is produced instead of the "same as field fld" descriptor. -/
theorem cex_C3 :
    analyze_dimensions (fieldWithDims none
      [dimElem (some "1") (some "a") (some "fld") none]) =
      .ok " (Rank: 1, Dimensions: [a])" ∧
    (" (Rank: 1, Dimensions: [a])" : String) ≠ refDescriptor "fld" :=
  ⟨by rfl, by decide⟩

/-- C3 (amended): dimension resolution short-circuits at the first entry that
carries a truthy reference and no truthy value, provided the loop reaches it
(the preceding entries complete normally); the result is the "same rank and
dimensions as field `<ref>`" descriptor, regardless of the declared rank and
of any later entries.  An entry carrying both a value and a reference takes
the value and does not short-circuit. -/
theorem thm_C3 (pre rest : List Elem) (e : Elem) (rank : Option String)
    (dims' : List String) (b' : Bool)
    (htags : ∀ x ∈ pre ++ e :: rest, x.tag = "dim")
    (hpre : dimLoop pre [] false = .ok (.finished dims' b'))
    (hidx : isDigitStr (e.get "index" "") = true)
    (hpos : pyParseNat (e.get "index" "") ≠ 0)
    (hnov : pyTruthy (e.get? "value") = false)
    (href : pyTruthy (e.get? "ref") = true) :
    analyze_dimensions (fieldWithDims rank (pre ++ e :: rest)) =
      .ok (refDescriptor ((e.get? "ref").getD "")) := by
  have hfilter : (pre ++ e :: rest).filter (fun c => c.tag = "dim") = pre ++ e :: rest :=
    List.filter_eq_self.mpr (fun x hx => by simp [htags x hx])
  have hloop : dimLoop (pre ++ e :: rest) [] false =
      .ok (.refReturn (refDescriptor ((e.get? "ref").getD ""))) := by
    rw [dimLoop_append pre (e :: rest) [] dims' false b' hpre]
    exact dimLoop_cons_ref e rest dims' b' hidx hpos hnov href
  have htagged : (fieldWithDims rank (pre ++ e :: rest)).tagged "dimensions" =
      [dimensionsElem rank (pre ++ e :: rest)] := by
    simp [fieldWithDims, Elem.tagged, Elem.children, dimensionsElem, Elem.tag]
  have hdims : (dimensionsElem rank (pre ++ e :: rest)).tagged "dim" = pre ++ e :: rest := by
    simp only [dimensionsElem, Elem.tagged, Elem.children]
    exact hfilter
  simp only [analyze_dimensions, htagged, hdims, hloop]
  rfl

/-- Witness for the amended C3: a literal entry followed by a ref
entry short-circuits even with a declared rank present. -/
theorem wit_C3 :
    analyze_dimensions (fieldWithDims (some "7")
      [dimElem (some "1") (some "a") none none,
       dimElem (some "2") none (some "other") none]) =
      .ok (refDescriptor "other") := by
  apply thm_C3 [dimElem (some "1") (some "a") none none] []
    (dimElem (some "2") none (some "other") none) (some "7") ["a"] false
    (by decide) (by rfl) (by rfl) (by decide) (by rfl) (by rfl)

lemma hasOptThenReq_nonOpt (es : List Elem) (h : hasOptThenReq es = true) :
    hasNonOptional es = true := by
  induction es with
  | nil => simp [hasOptThenReq] at h
  | cons e rest ih =>
    simp only [hasOptThenReq, Bool.or_eq_true, Bool.and_eq_true] at h
    simp only [hasNonOptional, List.any_cons, Bool.or_eq_true]
    rcases h with ⟨_, hr⟩ | h
    · right
      exact hr
    · right
      exact ih h

lemma dimLoop_true_error (es : List Elem)
    (hok : ∀ e ∈ es, dimNoRefOk e = true) (hreq : hasNonOptional es = true) :
    ∀ dims, dimLoop es dims true = .error msgOrder := by
  induction es with
  | nil => simp [hasNonOptional] at hreq
  | cons e rest ih =>
    intro dims
    by_cases hm : dimMarkedOptional e = true
    · obtain ⟨dims', hstep⟩ := dimLoop_cons_optStep e rest dims true (hok e (by simp)) hm
      rw [hstep]
      apply ih (fun x hx => hok x (by simp [hx]))
      simp only [hasNonOptional, List.any_cons, Bool.or_eq_true, hm,
        Bool.not_true, Bool.false_eq_true, false_or] at hreq
      exact hreq
    · have hok' := hok e (by simp)
      simp only [dimNoRefOk, Bool.and_eq_true, Bool.or_eq_true, bne_iff_ne, ne_eq,
        Bool.not_eq_true'] at hok'
      obtain ⟨⟨hidx, hpos⟩, hvr⟩ := hok'
      simp only [dimMarkedOptional, beq_iff_eq] at hm
      exact dimLoop_cons_orderError e rest dims hidx hpos hvr hm
  
lemma dimLoop_false_error (es : List Elem)
    (hok : ∀ e ∈ es, dimNoRefOk e = true) (hbad : hasOptThenReq es = true) :
    ∀ dims, dimLoop es dims false = .error msgOrder := by
  induction es with
  | nil => simp [hasOptThenReq] at hbad
  | cons e rest ih =>
    intro dims
    by_cases hm : dimMarkedOptional e = true
    · obtain ⟨dims', hstep⟩ := dimLoop_cons_optStep e rest dims false (hok e (by simp)) hm
      rw [hstep]
      apply dimLoop_true_error rest (fun x hx => hok x (by simp [hx]))
      simp only [hasOptThenReq, Bool.or_eq_true, Bool.and_eq_true] at hbad
      rcases hbad with ⟨_, h⟩ | h
      · exact h
      · exact hasOptThenReq_nonOpt rest h
    · simp only [Bool.not_eq_true] at hm
      obtain ⟨dims', hstep⟩ := dimLoop_cons_reqStep e rest dims (hok e (by simp)) hm
      rw [hstep]
      apply ih (fun x hx => hok x (by simp [hx]))
      simp only [hasOptThenReq, Bool.or_eq_true, Bool.and_eq_true] at hbad
      rcases hbad with ⟨hme, _⟩ | h
      · rw [hm] at hme
        exact absurd hme (by simp)
      · exact h

/-- C4 (amended): for a dimensions block of well-formed `<dim>` entries
(valid positive indices) none of which can take the reference short-circuit,
an entry marked `required="false"` followed by a later entry not marked
optional always raises the rank-ordering error. -/
theorem thm_C4 (es : List Elem) (rank : Option String)
    (htags : ∀ e ∈ es, e.tag = "dim")
    (hok : ∀ e ∈ es, dimNoRefOk e = true)
    (hbad : hasOptThenReq es = true) :
    analyze_dimensions (fieldWithDims rank es) = .error msgOrder := by
  have hfilter : es.filter (fun c => c.tag = "dim") = es :=
    List.filter_eq_self.mpr (fun x hx => by simp [htags x hx])
  have hloop : dimLoop es [] false = .error msgOrder :=
    dimLoop_false_error es hok hbad []
  have htagged : (fieldWithDims rank es).tagged "dimensions" = [dimensionsElem rank es] := by
    simp [fieldWithDims, Elem.tagged, Elem.children, dimensionsElem, Elem.tag]
  have hdims : (dimensionsElem rank es).tagged "dim" = es := by
    simp only [dimensionsElem, Elem.tagged, Elem.children]
    exact hfilter
  simp only [analyze_dimensions, htagged, hdims, hloop]
  rfl

/-- Witness for the amended C4. -/
theorem wit_C4 :
    analyze_dimensions (fieldWithDims none
      [dimElem (some "1") (some "a") none (some "false"),
       dimElem (some "2") (some "b") none none]) = .error msgOrder := by
  apply thm_C4 _ none (by decide) (by decide) (by decide)

/-- C4 counterexample: an optional entry followed by a non-optional entry
carrying a reference does not raise the ordering error — the reference
short-circuit wins and resolution succeeds. -/
theorem cex_C4 :
    dimMarkedOptional (dimElem (some "1") (some "a") none (some "false")) = true ∧
    dimMarkedOptional (dimElem (some "2") none (some "fld") none) = false ∧
    analyze_dimensions (fieldWithDims none
      [dimElem (some "1") (some "a") none (some "false"),
       dimElem (some "2") none (some "fld") none]) =
      .ok (refDescriptor "fld") :=
  ⟨by rfl, by rfl, by rfl⟩



lemma get_doc_blocks_single (name text : String) :
    get_doc_blocks (nodeWithDocs (some name) [text]) =
      (if (splitBlocksStr text).length = 1 ∧
          (pySplitlines ((splitBlocksStr text).headD "")).length = 1 then
        .ok [pyStrip ((splitBlocksStr text).headD "")]
      else if ((splitBlocksStr text).headD "").toList.dropWhile isPySpace = [] then
        .ok [""]
      else if leadWS ((splitBlocksStr text).headD "") = "" then
        .error (msgMissingIndent name ((splitBlocksStr text).headD ""))
      else
        (splitBlocksStr text).mapM
          (stripBlock name (leadWS ((splitBlocksStr text).headD "")))) := rfl

lemma mapM_stripLine_ok (name indent block : String) (lines : List String)
    (h : ∀ l ∈ lines, pyIsPrefixOf indent l = true) :
    lines.mapM (stripLine name indent block) =
      .ok (lines.map (fun l => l.drop indent.length)) := by
  induction lines with
  | nil => rfl
  | cons l ls ih =>
    have hl : pyIsPrefixOf indent l = true := h l (by simp)
    simp only [List.mapM_cons, stripLine, hl, if_true, ite_true]
    rw [ih (fun x hx => h x (by simp [hx]))]
    rfl

lemma mapM_stripLine_err (name indent block : String) (lines : List String)
    (h : ¬ ∀ l ∈ lines, pyIsPrefixOf indent l = true) :
    ∃ l, lines.mapM (stripLine name indent block) =
      .error (msgBadIndent name block indent l) := by
  induction lines with
  | nil => exact absurd (by simp) h
  | cons l ls ih =>
    by_cases hl : pyIsPrefixOf indent l = true
    · have : ¬ ∀ x ∈ ls, pyIsPrefixOf indent x = true := by
        intro hall
        exact h (by simpa [hl] using hall)
      obtain ⟨l', hl'⟩ := ih this
      refine ⟨l', ?_⟩
      simp only [List.mapM_cons, stripLine, hl, if_true, ite_true]
      rw [hl']
      rfl
    · refine ⟨l, ?_⟩
      simp only [List.mapM_cons, stripLine, hl, if_false, ite_false]
      rfl

lemma stripBlock_ok (name indent b : String)
    (h : ∀ l ∈ blockLines b, pyIsPrefixOf indent l = true) :
    stripBlock name indent b = .ok (strippedBlock indent b) := by
  simp only [stripBlock, strippedBlock, blockLines] at *
  rw [mapM_stripLine_ok name indent b _ h]
  rfl

lemma stripBlock_err (name indent b : String)
    (h : ¬ ∀ l ∈ blockLines b, pyIsPrefixOf indent l = true) :
    ∃ l, stripBlock name indent b = .error (msgBadIndent name b indent l) := by
  obtain ⟨l, hl⟩ := mapM_stripLine_err name indent b _ (by simpa [blockLines] using h)
  refine ⟨l, ?_⟩
  simp only [stripBlock]
  rw [hl]
  rfl

lemma mapM_stripBlock_ok (name indent : String) (bs : List String)
    (h : ∀ b ∈ bs, ∀ l ∈ blockLines b, pyIsPrefixOf indent l = true) :
    bs.mapM (stripBlock name indent) = .ok (bs.map (strippedBlock indent)) := by
  induction bs with
  | nil => rfl
  | cons b rest ih =>
    simp only [List.mapM_cons]
    rw [stripBlock_ok name indent b (h b (by simp))]
    rw [ih (fun x hx => h x (by simp [hx]))]
    rfl

lemma mapM_stripBlock_err (name indent : String) (bs : List String)
    (h : ¬ ∀ b ∈ bs, ∀ l ∈ blockLines b, pyIsPrefixOf indent l = true) :
    ∃ b l, bs.mapM (stripBlock name indent) = .error (msgBadIndent name b indent l) := by
  induction bs with
  | nil => exact absurd (by simp) h
  | cons b rest ih =>
    by_cases hb : ∀ l ∈ blockLines b, pyIsPrefixOf indent l = true
    · have : ¬ ∀ x ∈ rest, ∀ l ∈ blockLines x, pyIsPrefixOf indent l = true := by
        intro hall
        refine h ?_
        intro x hx
        rcases List.mem_cons.mp hx with hxb | hx'
        · subst hxb
          exact hb
        · exact hall x hx'

      obtain ⟨b', l', hbl⟩ := ih this
      refine ⟨b', l', ?_⟩
      simp only [List.mapM_cons]
      rw [stripBlock_ok name indent b hb, hbl]
      rfl
    · obtain ⟨l, hl⟩ := stripBlock_err name indent b hb
      refine ⟨b, l, ?_⟩
      simp only [List.mapM_cons]
      rw [hl]
      rfl



/-- C5 (amended): documentation-block extraction (i) returns a single
one-line paragraph verbatim with surrounding whitespace trimmed and no
indentation stripping; for multi-block or multi-line documentation it takes
the base indentation from the leading whitespace run of the first block and
(ii) strips exactly that prefix from every line of every block when all lines
carry it, (iii) raises the missing-indentation error when the first block
starts with a non-whitespace character, (iv) raises the bad-indentation error
when some line does not begin with the prefix, and (v) — the correction —
returns the single empty block without raising when the first block contains
no non-whitespace character at all. -/
theorem thm_C5 (name : String) :
    (∀ text b, splitBlocksStr text = [b] → (pySplitlines b).length = 1 →
       get_doc_blocks (nodeWithDocs (some name) [text]) = .ok [pyStrip b]) ∧
    (∀ text,
       ¬ ((splitBlocksStr text).length = 1 ∧
          (pySplitlines ((splitBlocksStr text).headD "")).length = 1) →
       hasContent ((splitBlocksStr text).headD "") = true →
       leadWS ((splitBlocksStr text).headD "") ≠ "" →
       (∀ b ∈ splitBlocksStr text, ∀ l ∈ blockLines b,
          pyIsPrefixOf (leadWS ((splitBlocksStr text).headD "")) l = true) →
       get_doc_blocks (nodeWithDocs (some name) [text]) =
         .ok ((splitBlocksStr text).map
           (strippedBlock (leadWS ((splitBlocksStr text).headD ""))))) ∧
    (∀ text,
       ¬ ((splitBlocksStr text).length = 1 ∧
          (pySplitlines ((splitBlocksStr text).headD "")).length = 1) →
       hasContent ((splitBlocksStr text).headD "") = true →
       leadWS ((splitBlocksStr text).headD "") = "" →
       get_doc_blocks (nodeWithDocs (some name) [text]) =
         .error (msgMissingIndent name ((splitBlocksStr text).headD ""))) ∧
    (∀ text,
       ¬ ((splitBlocksStr text).length = 1 ∧
          (pySplitlines ((splitBlocksStr text).headD "")).length = 1) →
       hasContent ((splitBlocksStr text).headD "") = true →
       leadWS ((splitBlocksStr text).headD "") ≠ "" →
       ¬ (∀ b ∈ splitBlocksStr text, ∀ l ∈ blockLines b,
            pyIsPrefixOf (leadWS ((splitBlocksStr text).headD "")) l = true) →
       ∃ b l, get_doc_blocks (nodeWithDocs (some name) [text]) =
         .error (msgBadIndent name b (leadWS ((splitBlocksStr text).headD "")) l)) ∧
    (∀ text,
       ¬ ((splitBlocksStr text).length = 1 ∧
          (pySplitlines ((splitBlocksStr text).headD "")).length = 1) →
       hasContent ((splitBlocksStr text).headD "") = false →
       get_doc_blocks (nodeWithDocs (some name) [text]) = .ok [""]) := by
  have hdrop : ∀ b0 : String, hasContent b0 = true ↔ b0.toList.dropWhile isPySpace ≠ [] := by
    intro b0
    simp [hasContent]
  refine ⟨?_, ?_, ?_, ?_, ?_⟩
  · intro text b hb hl
    rw [get_doc_blocks_single, hb]
    rw [if_pos ⟨by simp, by simpa using hl⟩]
    simp
  · intro text hsingle hcont hind hall
    rw [get_doc_blocks_single]
    rw [if_neg hsingle]
    rw [if_neg (by simpa using (hdrop _).mp hcont)]
    rw [if_neg hind]
    exact mapM_stripBlock_ok name _ _ hall
  · intro text hsingle hcont hind
    rw [get_doc_blocks_single]
    rw [if_neg hsingle]
    rw [if_neg (by simpa using (hdrop _).mp hcont)]
    rw [if_pos hind]
  · intro text hsingle hcont hind hbad
    rw [get_doc_blocks_single]
    rw [if_neg hsingle]
    rw [if_neg (by simpa using (hdrop _).mp hcont)]
    rw [if_neg hind]
    exact mapM_stripBlock_err name _ _ hbad
  · intro text hsingle hcont
    rw [get_doc_blocks_single]
    rw [if_neg hsingle]
    rw [if_pos (by simpa [hasContent] using hcont)]

/-- Witness for C5: all five branches at concrete inputs. -/
theorem wit_C5 :
    get_doc_blocks (nodeWithDocs (some "f") ["  hello  "]) = .ok ["hello"] ∧
    get_doc_blocks (nodeWithDocs (some "f") ["  line one\n  line two\n\n  second block"]) =
      .ok ["line one\nline two", "second block"] ∧
    get_doc_blocks (nodeWithDocs (some "f") ["line one\n  line two"]) =
      .error (msgMissingIndent "f" "line one\n  line two") ∧
    (∃ b l, get_doc_blocks (nodeWithDocs (some "f") ["  line one\nline two"]) =
      .error (msgBadIndent "f" b "  " l)) ∧
    get_doc_blocks (nodeWithDocs (some "f") ["  \n\n  foo"]) = .ok [""] := by
  refine ⟨?_, ?_, ?_, ?_, ?_⟩
  · rw [(thm_C5 "f").1 "  hello  " "  hello  " (by rfl) (by rfl)]
    rfl
  · rw [(thm_C5 "f").2.1 "  line one\n  line two\n\n  second block"
      (by decide) (by rfl) (by decide) (by decide)]
    rfl
  · rw [(thm_C5 "f").2.2.1 "line one\n  line two" (by decide) (by rfl) (by rfl)]
    rfl
  · obtain ⟨b, l, h⟩ := (thm_C5 "f").2.2.2.1 "  line one\nline two"
      (by decide) (by rfl) (by decide) (by decide)
    exact ⟨b, l, by simpa using h⟩
  · rw [(thm_C5 "f").2.2.2.2 "  \n\n  foo" (by decide) (by rfl)]

/-- C5 counterexample: a multi-block doc whose first block is pure
whitespace returns the single empty block `[""]` — neither the
indentation-stripped blocks `["", "foo"]` the claim describes nor an
`IndentationError`. -/
theorem cex_C5 :
    splitBlocksStr "  \n\n  foo" = ["  ", "  foo"] ∧
    get_doc_blocks (nodeWithDocs (some "f") ["  \n\n  foo"]) = .ok [""] ∧
    ([""] : List String) ≠ ["", "foo"] ∧
    (.ok ([""] : List String) : Except String (List String)).isOk = true :=
  ⟨by rfl, by rfl, by decide, by rfl⟩



lemma get_doc_blocks_nodoc (node : Elem) (h : node.tagged "doc" = []) :
    get_doc_blocks node = .ok [] := by
  unfold get_doc_blocks
  rw [h]

lemma long_doc_nodoc (node : Elem) (m : Nat) (h : node.tagged "doc" = []) :
    long_doc node m = .ok (0, "documentation", []) := by
  unfold long_doc
  rw [get_doc_blocks_nodoc node h]
  rfl

lemma print_doc_nodoc_err (indent : String) (node : Elem) (h : node.tagged "doc" = []) :
    print_doc indent node true = .error (msgNoDocumentation (pyStr (node.get? "name"))) := by
  unfold print_doc
  rw [get_doc_blocks_nodoc node h]
  rfl

lemma print_doc_nodoc_ok (indent : String) (node : Elem) (h : node.tagged "doc" = []) :
    print_doc indent node false = .ok ["\n"] := by
  unfold print_doc
  rw [get_doc_blocks_nodoc node h]
  rfl

lemma print_doc_enum_nodoc_err (indent : String) (node : Elem)
    (h : node.tagged "doc" = []) :
    print_doc_enum indent node true =
      .error (msgNoDocumentation (pyStr (node.get? "name"))) := by
  unfold print_doc_enum
  rw [long_doc_nodoc node indent.length h]
  simp only [bind, Except.bind]
  rw [print_doc_nodoc_err _ node h]

lemma print_doc_enum_nodoc_ok (indent : String) (node : Elem)
    (h : node.tagged "doc" = []) (he : node.tagged "enumeration" = []) :
    print_doc_enum indent node false = .ok ["\n"] := by
  unfold print_doc_enum
  rw [long_doc_nodoc node indent.length h, he]
  simp only [bind, Except.bind]
  rw [print_doc_nodoc_ok _ node h]
  rfl



lemma parse_body_nodoc (env : Env) (root : Elem) (n c : String)
    (hname : root.get? "name" = some n) (hlen : 2 ≤ n.length)
    (htake : n.take 2 = "NX")
    (hcat : root.get? "category" = some c) (hc : c = "base" ∨ c = "application")
    (hdoc : root.tagged "doc" = []) :
    parse_body env root = .error (msgNoDocumentation n) := by
  have hcond : ¬ (n.length < 2 ∨ n.take 2 ≠ "NX") := by
    push_neg
    exact ⟨by omega, htake⟩
  unfold parse_body
  rw [hname, hcat]
  rw [print_doc_enum_nodoc_err "" root hdoc]
  rcases hc with hc | hc <;> subst hc <;>
    simp [bind, Except.bind, pure, Except.pure, hcond, pyStr, hname, CATEGORY_TO_LISTING]

/-- C6: rendering a document whose root element has no documentation block
raises the missing-documentation error (before any wrapping), for every
environment, registry and root with a valid NX-prefixed name and a known
category; and for a non-root structural node with no documentation (and no
enumeration), `_print_doc_enum` emits exactly the empty documentation section
`["\n"]` and never raises. -/
theorem thm_C6 :
    (∀ (env : Env) (reg : Option AnchorRegistry) (root : Elem) (n c : String),
      root.get? "name" = some n → 2 ≤ n.length → n.take 2 = "NX" →
      root.get? "category" = some c → (c = "base" ∨ c = "application") →
      root.tagged "doc" = [] →
      parse_nxdl_file env reg root = .error (msgNoDocumentation n)) ∧
    (∀ (indent : String) (node : Elem),
      node.tagged "doc" = [] → node.tagged "enumeration" = [] →
      print_doc_enum indent node false = .ok ["\n"]) := by
  constructor
  · intro env reg root n c hname hlen htake hcat hc hdoc
    unfold parse_nxdl_file
    rw [parse_body_nodoc env root n c hname hlen htake hcat hc hdoc]
    rfl
  · intro indent node h he
    exact print_doc_enum_nodoc_ok indent node h he

/-- Witness for C6: a concrete doc-less root raises, a concrete doc-less
attribute renders the empty section. -/
theorem wit_C6 :
    parse_nxdl_file envW none
      (.mk "definition" [("name", "NXtest"), ("category", "base")] "" []) =
      .error (msgNoDocumentation "NXtest") ∧
    print_doc_enum "  " (.mk "attribute" [("name", "a")] "" []) false = .ok ["\n"] :=
  ⟨thm_C6.1 envW none _ "NXtest" "base" rfl (by decide) rfl rfl (Or.inl rfl) rfl,
   thm_C6.2 "  " _ rfl rfl⟩



lemma second_elem_ne (oneliner : String) :
    ("\n\n" : String) ≠ " " ++ oneliner ++ "\n" := by
  intro h
  have h2 : ("\n\n" : String).data = (" " ++ oneliner ++ "\n").data := congrArg String.data h
  have h3 : ['\n', '\n'] = (' ' :: oneliner.data) ++ ['\n'] := h2
  simp at h3

/-- C7: enumeration rendering labels a single-item enumeration
"Obligatory value:" and a multi-item one "Any of these values:" (the label is
part of both output forms below); the values render inline — literal-quoted
and pipe-joined — exactly when no individual value has its own doc text and
the joined line does not exceed the 60-character inline threshold, and render
as one bulleted line per value (with its doc appended) whenever any per-value
doc is present, regardless of length. -/
theorem thm_C7 (indent : String) (items : List Elem)
    (docs : List (Option String × String))
    (hne : items ≠ []) (hitems : ∀ i ∈ items, i.tag = "item")
    (hdocs : enum_docs items = .ok docs) :
    (print_enumeration indent (enumerationElem items) =
        .ok [indent ++ (if items.length = 1 then "Obligatory value:" else "Any of these values:"),
             " " ++ pyJoin " | " (docs.map (fun p => show_as_typed_text p.1)) ++ "\n", "\n"]
      ↔ (∀ p ∈ docs, p.2 = "") ∧
        (pyJoin " | " (docs.map (fun p => show_as_typed_text p.1))).length ≤
          ENUMERATION_INLINE_LENGTH) ∧
    ((∃ p ∈ docs, p.2 ≠ "") →
      print_enumeration indent (enumerationElem items) =
        .ok ((indent ++ (if items.length = 1 then "Obligatory value:" else "Any of these values:")) ::
          "\n\n" ::
          docs.flatMap (fun p =>
            [indent ++ "  * " ++ show_as_typed_text p.1] ++
            (if p.2 ≠ "" then [": " ++ p.2] else []) ++ ["\n\n"]) ++ ["\n"])) := by
  have htagged : (enumerationElem items).tagged "item" = items :=
    List.filter_eq_self.mpr (fun x hx => by simp [hitems x hx])
  have hempty : items.isEmpty = false := by
    cases items
    · exact absurd rfl hne
    · rfl
  have hpe : print_enumeration indent (enumerationElem items) =
      if docs.any (fun p => decide (p.2 ≠ "")) = true ∨
         (pyJoin " | " (docs.map (fun p => show_as_typed_text p.1))).length >
           ENUMERATION_INLINE_LENGTH then
        .ok ((indent ++ (if items.length = 1 then "Obligatory value:" else "Any of these values:")) ::
          "\n\n" ::
          docs.flatMap (fun p =>
            [indent ++ "  * " ++ show_as_typed_text p.1] ++
            (if p.2 ≠ "" then [": " ++ p.2] else []) ++ ["\n\n"]) ++ ["\n"])
      else
        .ok [indent ++ (if items.length = 1 then "Obligatory value:" else "Any of these values:"),
             " " ++ pyJoin " | " (docs.map (fun p => show_as_typed_text p.1)) ++ "\n", "\n"] := by
    unfold print_enumeration
    rw [htagged]
    simp only [hempty, Bool.false_eq_true, if_false, ite_false, hdocs, bind, Except.bind,
      pure, Except.pure]
  have hsecond : ∀ (rest : List String),
      print_enumeration indent (enumerationElem items) =
        .ok ((indent ++ (if items.length = 1 then "Obligatory value:" else "Any of these values:")) ::
          "\n\n" :: rest) →
      print_enumeration indent (enumerationElem items) ≠
        .ok [indent ++ (if items.length = 1 then "Obligatory value:" else "Any of these values:"),
             " " ++ pyJoin " | " (docs.map (fun p => show_as_typed_text p.1)) ++ "\n", "\n"] := by
    intro rest hbul heq
    rw [hbul] at heq
    have hl := Except.ok.inj heq
    have h2 := congrArg (fun l => l.get? 1) hl
    simp only [List.get?] at h2
    exact second_elem_ne _ (by simpa using h2)
  constructor
  · constructor
    · intro heq
      by_cases hb : docs.any (fun p => decide (p.2 ≠ "")) = true
      · refine absurd heq (hsecond (docs.flatMap (fun p =>
            [indent ++ "  * " ++ show_as_typed_text p.1] ++
            (if p.2 ≠ "" then [": " ++ p.2] else []) ++ ["\n\n"]) ++ ["\n"]) ?_)
        rw [hpe, if_pos (Or.inl hb)]
        rfl
      · by_cases hlen : (pyJoin " | " (docs.map (fun p => show_as_typed_text p.1))).length >
            ENUMERATION_INLINE_LENGTH
        · refine absurd heq (hsecond (docs.flatMap (fun p =>
              [indent ++ "  * " ++ show_as_typed_text p.1] ++
              (if p.2 ≠ "" then [": " ++ p.2] else []) ++ ["\n\n"]) ++ ["\n"]) ?_)
          rw [hpe, if_pos (Or.inr hlen)]
          rfl
        · refine ⟨?_, by omega⟩
          intro p hp
          by_contra hne2
          exact hb (List.any_eq_true.mpr ⟨p, hp, by simpa using hne2⟩)
    · rintro ⟨hall, hlen⟩
      have hb : docs.any (fun p => decide (p.2 ≠ "")) = false := by
        cases h : docs.any (fun p => decide (p.2 ≠ "")) with
        | false => rfl
        | true =>
          obtain ⟨p, hp, hp2⟩ := List.any_eq_true.mp h
          exact absurd (hall p hp) (by simpa using hp2)
      have hcond : ¬ ((docs.any fun p => decide (p.2 ≠ "")) = true ∨
          (pyJoin " | " (docs.map (fun p => show_as_typed_text p.1))).length >
            ENUMERATION_INLINE_LENGTH) := by
        rw [not_or]
        refine ⟨fun hcontra => ?_, by omega⟩
        rw [hb] at hcontra
        exact absurd hcontra (by simp)
      rw [hpe, if_neg hcond]
  · rintro ⟨p, hp, hpne⟩
    rw [hpe, if_pos (Or.inl (List.any_eq_true.mpr ⟨p, hp, by simpa using hpne⟩))]



/-- Witness for C7: inline two-value, bulleted with-doc, and single-value
obligatory renderings at concrete inputs. -/
theorem wit_C7 :
    print_enumeration "  " (enumerationElem
      [enumItemElem (some "a") [], enumItemElem (some "b") []]) =
      .ok ["  Any of these values:", " ``a`` | ``b``\n", "\n"] ∧
    print_enumeration "  " (enumerationElem
      [enumItemElem (some "x") ["has doc"], enumItemElem (some "y") []]) =
      .ok ["  Any of these values:", "\n\n", "    * ``x``", ": has doc", "\n\n",
           "    * ``y``", "\n\n", "\n"] ∧
    print_enumeration "  " (enumerationElem [enumItemElem (some "only") []]) =
      .ok ["  Obligatory value:", " ``only``\n", "\n"] := by
  refine ⟨?_, ?_, ?_⟩
  · have h := (thm_C7 "  "
      [enumItemElem (some "a") [], enumItemElem (some "b") []]
      [(some "a", ""), (some "b", "")] (by exact List.cons_ne_nil _ _) (by decide)
      (by rfl)).1.mpr ⟨by decide, by decide⟩
    rw [h]
    rfl
  · have h := (thm_C7 "  "
      [enumItemElem (some "x") ["has doc"], enumItemElem (some "y") []]
      [(some "x", "has doc"), (some "y", "")] (by exact List.cons_ne_nil _ _) (by decide)
      (by rfl)).2 ⟨(some "x", "has doc"), by decide, by decide⟩
    rw [h]
    rfl
  · have h := (thm_C7 "  " [enumItemElem (some "only") []]
      [(some "only", "")] (by exact List.cons_ne_nil _ _) (by decide) (by rfl)).1.mpr
      ⟨by decide, by decide⟩
    rw [h]
    rfl



/-- C8: whenever parsing fails, for any reason whatsoever, the caller of
`__call__` observes exactly one error shape — `NXDLParseError` carrying the
source file identifier — and receives no line buffer. -/
theorem thm_C8 (st : GenState) (env : Env) (root : Elem) (reg : Option AnchorRegistry)
    (h : ∃ e, parse_nxdl_file env (call_reg env reg) root = .error e) :
    (call st env root reg).1 = .error (NXDLParseError env.nxdl_file) := by
  obtain ⟨e, he⟩ := h
  simp only [call]
  rw [he]

/-- Witness for C8: a class name without the NX prefix fails deep in the
parser and surfaces as the wrapped error. -/
theorem wit_C8 :
    (call (GenState.afterReset none) envW
      (.mk "definition" [("name", "Xbad"), ("category", "base")] "" []) none).1 =
      .error (NXDLParseError envW.nxdl_file) := by
  apply thm_C8
  exact ⟨"Unexpected class name \"Xbad\"; does not start with NX", by rfl⟩

/-- C9: rendering the same document with two independent (same-content)
Anchor Registries yields identical results regardless of the prior generator
state, and a second sequential invocation of the generator on the same
document reproduces the first result exactly: the render is a pure function
of the document and the environment (resolver and contributor responses),
with no state carried over between invocations. -/
theorem thm_C9 (st1 st2 : GenState) (env : Env) (root : Elem)
    (r1 r2 : AnchorRegistry) (h : r1.buffer = r2.buffer) :
    (call st1 env root (some r1)).1 = (call st2 env root (some r2)).1 ∧
    (call (call st1 env root (some r1)).2 env root (some r2)).1 =
      (call st1 env root (some r1)).1 := by
  have hreg : call_reg env (some r1) = call_reg env (some r2) := by
    cases r1
    cases r2
    simp only [call_reg, Option.some.injEq, AnchorRegistry.mk.injEq, true_and]
    exact h
  constructor
  · simp only [call]
    rw [hreg]
  · simp only [call]
    rw [hreg]

/-- Witness for C9 at a concrete document, with two fresh registries and two
different prior generator states. -/
theorem wit_C9 :
    (call (GenState.afterReset none) envW rootW (some ⟨none, []⟩)).1 =
      (call (GenState.afterReset (some [])) envW rootW (some ⟨some "f", []⟩)).1 ∧
    (call (call (GenState.afterReset none) envW rootW (some ⟨none, []⟩)).2 envW rootW
      (some ⟨some "f", []⟩)).1 =
      (call (GenState.afterReset none) envW rootW (some ⟨none, []⟩)).1 :=
  thm_C9 (GenState.afterReset none) (GenState.afterReset (some [])) envW rootW
    ⟨none, []⟩ ⟨some "f", []⟩ rfl

/-- C10: with `anchor_registry=None`, rendering a document whose body parses
still succeeds; the output is the body followed directly by the NXDL-source
pointer — the trailing Hypertext Anchors section is omitted entirely while
every other emitted line (including the per-node hyperlink-target lines in
the body) is identical to a render with a fresh registry present; and no
anchor is registered anywhere (the registry out-state stays `none`). -/
theorem thm_C10 (st : GenState) (env : Env) (root : Elem)
    (bodyLines anchors : List String)
    (h : parse_body env root = .ok (bodyLines, anchors)) :
    (call st env root none).1 = .ok (bodyLines ++ nxdl_source_lines env) ∧
    (call st env root (some ⟨none, []⟩)).1 =
      .ok (bodyLines ++
        anchor_list_lines
          ((anchors.foldl AnchorRegistry.add ⟨some env.nxdl_file, []⟩).buffer) ++
        nxdl_source_lines env) ∧
    parse_nxdl_file env none root = .ok (bodyLines ++ nxdl_source_lines env, none) := by
  have hnone : parse_nxdl_file env none root =
      .ok (bodyLines ++ nxdl_source_lines env, none) := by
    unfold parse_nxdl_file
    rw [h]
    simp [bind, Except.bind, pure, Except.pure, print_anchor_list]
  have hsome : parse_nxdl_file env (some ⟨some env.nxdl_file, []⟩) root =
      .ok (bodyLines ++
        anchor_list_lines
          ((anchors.foldl AnchorRegistry.add ⟨some env.nxdl_file, []⟩).buffer) ++
        nxdl_source_lines env,
        some { anchors.foldl AnchorRegistry.add ⟨some env.nxdl_file, []⟩ with buffer := [] }) := by
    unfold parse_nxdl_file
    rw [h]
    simp [bind, Except.bind, pure, Except.pure, print_anchor_list,
      AnchorRegistry.flush_anchor_buffer]
  refine ⟨?_, ?_, hnone⟩
  · simp only [call]
    rw [show call_reg env none = none from rfl, hnone]
  · simp only [call]
    rw [show call_reg env (some ⟨none, []⟩) = some ⟨some env.nxdl_file, []⟩ from rfl, hsome]

/-- Witness for C10 on a concrete one-field document: the two renders differ
exactly by the five-line Hypertext Anchors section. -/
theorem wit_C10 :
    (call (GenState.afterReset none) envW rootW2 none).1 =
      .ok ([".. auto-generated by dev_tools.docs.nxdl from the NXDL source base_classes/NXtest.nxdl.xml -- DO NOT EDIT\n",
        "\n", ".. index::\n", "    ! NXtest (base class)\n", "    ! test (base class)\n",
        "    see: test (base class); NXtest\n", "\n", ".. _NXtest:\n\n", "======\n", "NXtest\n",
        "======\n", "\n", "**Status**:\n\n", "  base class, extends none\n", "\n",
        "**Description**:\n\n", "  A tiny test class.\n", "\n", "**Symbols**:\n\n",
        "  No symbol table\n\n", "**Groups cited**:\n", "  none\n\n", "**Structure**:\n\n",
        "  .. _/NXtest/f1-field:\n\n", "  .. index:: f1 (field)\n\n",
        "  **f1**: (optional) :ref:`NX_CHAR <NX_CHAR>` \n\n", "    Field doc.\n", "\n"] ++
        nxdl_source_lines envW) ∧
    (call (GenState.afterReset none) envW rootW2 (some ⟨none, []⟩)).1 =
      .ok ([".. auto-generated by dev_tools.docs.nxdl from the NXDL source base_classes/NXtest.nxdl.xml -- DO NOT EDIT\n",
        "\n", ".. index::\n", "    ! NXtest (base class)\n", "    ! test (base class)\n",
        "    see: test (base class); NXtest\n", "\n", ".. _NXtest:\n\n", "======\n", "NXtest\n",
        "======\n", "\n", "**Status**:\n\n", "  base class, extends none\n", "\n",
        "**Description**:\n\n", "  A tiny test class.\n", "\n", "**Symbols**:\n\n",
        "  No symbol table\n\n", "**Groups cited**:\n", "  none\n\n", "**Structure**:\n\n",
        "  .. _/NXtest/f1-field:\n\n", "  .. index:: f1 (field)\n\n",
        "  **f1**: (optional) :ref:`NX_CHAR <NX_CHAR>` \n\n", "    Field doc.\n", "\n"] ++
        ["\n", "Hypertext Anchors\n", "-----------------\n\n",
         "List of hypertext anchors for all groups, fields,\nattributes, and links defined in this class.\n\n\n",
         "* :ref:`/NXtest/f1-field </NXtest/f1-field>`\n"] ++
        nxdl_source_lines envW) ∧
    parse_nxdl_file envW none rootW2 =
      .ok ([".. auto-generated by dev_tools.docs.nxdl from the NXDL source base_classes/NXtest.nxdl.xml -- DO NOT EDIT\n",
        "\n", ".. index::\n", "    ! NXtest (base class)\n", "    ! test (base class)\n",
        "    see: test (base class); NXtest\n", "\n", ".. _NXtest:\n\n", "======\n", "NXtest\n",
        "======\n", "\n", "**Status**:\n\n", "  base class, extends none\n", "\n",
        "**Description**:\n\n", "  A tiny test class.\n", "\n", "**Symbols**:\n\n",
        "  No symbol table\n\n", "**Groups cited**:\n", "  none\n\n", "**Structure**:\n\n",
        "  .. _/NXtest/f1-field:\n\n", "  .. index:: f1 (field)\n\n",
        "  **f1**: (optional) :ref:`NX_CHAR <NX_CHAR>` \n\n", "    Field doc.\n", "\n"] ++
        nxdl_source_lines envW, none) := by
  have h := thm_C10 (GenState.afterReset none) envW rootW2
    [".. auto-generated by dev_tools.docs.nxdl from the NXDL source base_classes/NXtest.nxdl.xml -- DO NOT EDIT\n",
     "\n", ".. index::\n", "    ! NXtest (base class)\n", "    ! test (base class)\n",
     "    see: test (base class); NXtest\n", "\n", ".. _NXtest:\n\n", "======\n", "NXtest\n",
     "======\n", "\n", "**Status**:\n\n", "  base class, extends none\n", "\n",
     "**Description**:\n\n", "  A tiny test class.\n", "\n", "**Symbols**:\n\n",
     "  No symbol table\n\n", "**Groups cited**:\n", "  none\n\n", "**Structure**:\n\n",
     "  .. _/NXtest/f1-field:\n\n", "  .. index:: f1 (field)\n\n",
     "  **f1**: (optional) :ref:`NX_CHAR <NX_CHAR>` \n\n", "    Field doc.\n", "\n"]
    ["/NXtest/f1-field"] (by rfl)
  refine ⟨h.1, ?_, h.2.2⟩
  rw [h.2.1]
  rfl


end Nxdl
